import Mathlib

/-!
Shallow embedding of `tdnet_xbrl_downloader.py` (TDnet XBRL downloader).

Strings are modelled as Lean `String`, processed through explicit
`List Char` helpers so that every operation is structurally recursive and
kernel-computable.  Python floats are modelled exactly as rationals (`ℚ`);
the model of `float(...)` covers the decimal-numeral grammar
(optional sign, digits, fraction, exponent) and rejects everything else,
matching CPython on all inputs relevant here (it omits `inf`/`nan` and
underscore separators, which the program never feeds it).
Python dictionaries are modelled as ordered association lists with
insert-or-overwrite-in-place semantics, matching CPython's
insertion-ordered dicts.
-/

namespace Tdnet

/-- Model of Python's whitespace class used by `str.strip()` and `\s`:
space, tab, newline, carriage return, vertical tab, form feed and the
ideographic space U+3000 (the subset of Unicode whitespace that can occur
in this program's inputs). -/
def pyIsSpace (c : Char) : Bool :=
  c = ' ' || c = '\t' || c = '\n' || c = '\r' || c = '\x0b' || c = '\x0c' || c = '　'

/-- Char-list core of Python `str.strip()`: drop leading and trailing
whitespace. -/
def trimChars (l : List Char) : List Char :=
  ((l.dropWhile pyIsSpace).reverse.dropWhile pyIsSpace).reverse

/-- Model of Python `str.strip()` with no argument. -/
def strTrim (s : String) : String := ⟨trimChars s.data⟩

/-- Model of `re.sub(r'\s+', '', s)`: remove every whitespace character. -/
def removeAllSpace (s : String) : String := ⟨s.data.filter (fun c => !pyIsSpace c)⟩

/-- Does the char list `l` start with `pat`? -/
def startsWithChars : List Char → List Char → Bool
  | [], _ => true
  | _ :: _, [] => false
  | p :: ps, c :: cs => p = c && startsWithChars ps cs

/-- Does `pat` occur as a contiguous sublist of `l`?  Model of Python's
substring test `pat in s`. -/
def containsChars (pat : List Char) : List Char → Bool
  | [] => startsWithChars pat []
  | c :: cs => startsWithChars pat (c :: cs) || containsChars pat cs

/-- Python `sub in s` on strings. -/
def strContains (s sub : String) : Bool := containsChars sub.data s.data

/-- Python `s.startswith(p)` / the regex test `re.compile('^p')`. -/
def strStartsWith (s p : String) : Bool := startsWithChars p.data s.data

/-- Does the char list `l` end with `pat`? -/
def endsWithChars (pat l : List Char) : Bool :=
  startsWithChars pat.reverse l.reverse

/-- Python `s.endswith(p)` (used to model `Path.glob` patterns). -/
def strEndsWith (s p : String) : Bool := endsWithChars p.data s.data

/-- Fuelled core of Python `str.replace`: replace each left-to-right
non-overlapping occurrence of `pat` by `rep`.  The fuel is the length of
the subject, enough because every step consumes at least one character
(the program only ever replaces non-empty patterns). -/
def replaceChars : Nat → List Char → List Char → List Char → List Char
  | 0, s, _, _ => s
  | _ + 1, [], _, _ => []
  | fuel + 1, c :: cs, pat, rep =>
    if startsWithChars pat (c :: cs) then
      rep ++ replaceChars fuel ((c :: cs).drop pat.length) pat rep
    else
      c :: replaceChars fuel cs pat rep

/-- Model of Python `s.replace(pat, rep)` for non-empty `pat`. -/
def strReplace (s pat rep : String) : String :=
  ⟨replaceChars s.data.length s.data pat.data rep.data⟩

/-- ASCII lower-casing; model of Python `str.lower()` on the ASCII keys and
keyword tables this program compares (no non-ASCII letters occur there). -/
def asciiLowerChar (c : Char) : Char :=
  if 'A' ≤ c && c ≤ 'Z' then Char.ofNat (c.toNat + 32) else c

/-- Python `s.lower()` restricted to ASCII letters. -/
def strLower (s : String) : String := ⟨s.data.map asciiLowerChar⟩

/-- Is `c` an ASCII digit?  Model of the `\d` regex class and of
`str.isdigit()` after NFKC normalization. -/
def isAsciiDigit (c : Char) : Bool := '0' ≤ c && c ≤ '9'

/-- Numeric value of a list of ASCII digits. -/
def digitsToNat (l : List Char) : Nat :=
  l.foldl (fun a c => a * 10 + (c.toNat - 48)) 0

/-- Model of `unicodedata.normalize('NFKC', ·)` on one character,
restricted to the character classes occurring in this program's date and
number strings: full-width ASCII variants U+FF01–U+FF5E fold to ASCII and
the ideographic space folds to a space; everything else (ASCII, kanji such
as 年/月/日) is NFKC-invariant and kept. -/
def nfkcChar (c : Char) : Char :=
  if c = '　' then ' '
  else if 0xFF01 ≤ c.toNat && c.toNat ≤ 0xFF5E then Char.ofNat (c.toNat - 0xFEE0)
  else c

/-- Model of `unicodedata.normalize('NFKC', s)` on the relevant characters. -/
def nfkcStr (l : List Char) : List Char := l.map nfkcChar

/-- The integer `±n` for a parsed sign flag and magnitude. -/
def signedInt (neg : Bool) (n : Nat) : Int :=
  if neg then -(Int.ofNat n) else Int.ofNat n

/-- Model of Python `float(s)` on decimal numerals, returning the exact
rational value: optional sign, integer digits, optional fraction, optional
exponent; at least one mantissa digit; anything else raises `ValueError`,
modelled as `none`.  The value is assembled with `mkRat` over pure
natural-number arithmetic. -/
def pyFloatChars (l : List Char) : Option ℚ :=
  let (neg, l1) :=
    match l with
    | '-' :: r => (true, r)
    | '+' :: r => (false, r)
    | _ => (false, l)
  let ip := l1.takeWhile isAsciiDigit
  let r1 := l1.dropWhile isAsciiDigit
  let (fp, r2) :=
    match r1 with
    | '.' :: r => (r.takeWhile isAsciiDigit, r.dropWhile isAsciiDigit)
    | _ => ([], r1)
  if ip.isEmpty && fp.isEmpty then none
  else
    let mant := digitsToNat (ip ++ fp)
    let fden := 10 ^ fp.length
    match r2 with
    | [] => some (mkRat (signedInt neg mant) fden)
    | c :: r3 =>
      if c = 'e' || c = 'E' then
        let (eneg, r4) :=
          match r3 with
          | '-' :: r => (true, r)
          | '+' :: r => (false, r)
          | _ => (false, r3)
        let ed := r4.takeWhile isAsciiDigit
        let r5 := r4.dropWhile isAsciiDigit
        if ed.isEmpty || !r5.isEmpty then none
        else if eneg then some (mkRat (signedInt neg mant) (fden * 10 ^ digitsToNat ed))
        else some (mkRat (signedInt neg (mant * 10 ^ digitsToNat ed)) fden)
      else none

/-- Model of Python `float(s)`. -/
def pyFloat (s : String) : Option ℚ := pyFloatChars s.data

/-- Greedy-with-backtracking match of `\d{1,2}` followed by the separator
character `sep`, as the regex engine behaves inside
`(\d{4})年(\d{1,2})月(\d{1,2})日` and the `%m`/`%d` directives: prefer two
digits, fall back to one.  Returns the matched digit characters and the
rest of the input after the separator. -/
def grabDigits12 (sep : Char) : List Char → Option (List Char × List Char)
  | x :: y :: z :: rest =>
    if isAsciiDigit x then
      if isAsciiDigit y && z = sep then some ([x, y], rest)
      else if y = sep then some ([x], z :: rest)
      else none
    else none
  | x :: y :: [] =>
    if isAsciiDigit x && y = sep then some ([x], []) else none
  | _ => none

/-- Model of `re.match(r'(\d{4})年(\d{1,2})月(\d{1,2})日', s)` (anchored at
the start, trailing input allowed), returning the three captured digit
groups. -/
def jpDateMatch : List Char → Option (List Char × List Char × List Char)
  | a :: b :: c :: d :: '年' :: rest =>
    if isAsciiDigit a && isAsciiDigit b && isAsciiDigit c && isAsciiDigit d then
      match grabDigits12 '月' rest with
      | some (m, rest2) =>
        match grabDigits12 '日' rest2 with
        | some (dd, _) => some ([a, b, c, d], m, dd)
        | none => none
      | none => none
    else none
  | _ => none

/-- Python `str.zfill(2)` on a non-empty digit group. -/
def zfill2 (l : List Char) : String :=
  if l.length ≥ 2 then ⟨l⟩ else ⟨'0' :: l⟩

/-- Is `y` a Gregorian leap year (as `datetime` validates dates)? -/
def isLeapYear (y : Nat) : Bool :=
  y % 4 = 0 && (y % 100 ≠ 0 || y % 400 = 0)

/-- Days in month `m` of year `y`, as `datetime` validates dates. -/
def daysInMonth (y m : Nat) : Nat :=
  if m = 2 then (if isLeapYear y then 29 else 28)
  else if m = 4 || m = 6 || m = 9 || m = 11 then 30
  else 31

/-- `datetime(y, m, d)` constructor validity: `MINYEAR ≤ y`, a real month
and a real day of that month. -/
def validYMD (y m d : Nat) : Bool :=
  1 ≤ y && 1 ≤ m && m ≤ 12 && 1 ≤ d && d ≤ daysInMonth y m

/-- Model of `datetime.strptime(s, '%Y<sep>%m<sep>%d')`: exactly four year
digits, separator, one-or-two-digit month and day (value-constrained as
the strptime regexes are), full match, then calendar validation. -/
def strpYMD (sep : Char) (l : List Char) : Option (Nat × Nat × Nat) :=
  match l with
  | a :: b :: c :: d :: s1 :: rest =>
    if isAsciiDigit a && isAsciiDigit b && isAsciiDigit c && isAsciiDigit d && s1 = sep then
      match grabDigits12 sep rest with
      | some (m, rest2) =>
        if rest2.all isAsciiDigit && (rest2.length = 1 || rest2.length = 2) then
          let y := digitsToNat [a, b, c, d]
          let mv := digitsToNat m
          let dv := digitsToNat rest2
          if validYMD y mv dv then some (y, mv, dv) else none
        else none
      | none => none
    else none
  | _ => none

/-- Model of `datetime.strptime(s, '%m/%d/%Y')`: one-or-two-digit month,
slash, one-or-two-digit day, slash, four year digits, full match, then
calendar validation. -/
def strpMDY (l : List Char) : Option (Nat × Nat × Nat) :=
  match grabDigits12 '/' l with
  | some (m, rest) =>
    match grabDigits12 '/' rest with
    | some (d, rest2) =>
      if rest2.all isAsciiDigit && rest2.length = 4 then
        let y := digitsToNat rest2
        let mv := digitsToNat m
        let dv := digitsToNat d
        if validYMD y mv dv then some (y, mv, dv) else none
      else none
    | none => none
  | none => none

/-- The fallback format list `['%Y/%m/%d', '%Y.%m.%d', '%Y-%m-%d',
'%m/%d/%Y']` tried in order; a format that matches but yields an invalid
calendar date raises `ValueError` and the next format is tried. -/
def strptimeFirst (l : List Char) : Option (Nat × Nat × Nat) :=
  match strpYMD '/' l with
  | some r => some r
  | none =>
    match strpYMD '.' l with
    | some r => some r
    | none =>
      match strpYMD '-' l with
      | some r => some r
      | none => strpMDY l

/-- Decimal digits of `n`, zero-padded on the left to width `w`; model of
`strftime` field output (`%Y` width 4, `%m`/`%d` width 2).  CPython's
`%Y` padding for years below 1000 is platform-dependent; the model uses
the zero-padded variant, which only matters for 4-digit date strings
with leading-zero years, a corner no claim touches. -/
def padNat (w n : Nat) : String :=
  let s := Nat.repr n
  if s.length ≥ w then s else ⟨List.replicate (w - s.length) '0' ++ s.data⟩

/-- Does the NFKC-normalized, stripped string match any of the date
formats `_format_date_to_iso` accepts (ISO-shaped, compact `yyyymmdd`,
Japanese `yyyy年m月d日`, or one of the four strptime fallbacks)? -/
def acceptedDateFormat (n : List Char) : Bool :=
  (n.length = 10 && n.count '-' = 2) ||
  (n.length = 8 && n.all isAsciiDigit) ||
  (jpDateMatch n).isSome ||
  (strptimeFirst n).isSome

/-- Model of `_format_date_to_iso`: falsy input yields `''`; otherwise the
input is stripped and NFKC-normalized, then matched in order against (a)
length-10 with exactly two `-` (returned unchanged), (b) eight digits,
(c) the Japanese date regex (month/day zero-filled), (d) the strptime
fallback list; if nothing matches, the normalized string itself is
returned. -/
def formatDateToIso (s : String) : String :=
  if s.data = [] then ""
  else
    let n := nfkcStr (trimChars s.data)
    if n.length = 10 && n.count '-' = 2 then ⟨n⟩
    else if n.length = 8 && n.all isAsciiDigit then
      (⟨n.take 4⟩ : String) ++ "-" ++ (⟨(n.drop 4).take 2⟩ : String) ++ "-" ++ (⟨n.drop 6⟩ : String)
    else
      match jpDateMatch n with
      | some (y, m, d) => (⟨y⟩ : String) ++ "-" ++ zfill2 m ++ "-" ++ zfill2 d
      | none =>
        match strptimeFirst n with
        | some (y, m, d) => padNat 4 y ++ "-" ++ padNat 2 m ++ "-" ++ padNat 2 d
        | none => ⟨n⟩

/-- One inline-tagged element of an XHTML document: `name` and
`contextref` attributes, the `sign` attribute (`''` when absent, as
`elem.get('sign', '')` yields), and the element text as returned by
`get_text()`. -/
structure Elem where
  name : String
  contextref : String
  sign : String
  text : String
deriving DecidableEq

/-- A value held in an extracted record: a parsed number (exact rational)
or a raw/normalized string. -/
inductive Value where
  | num (v : ℚ)
  | str (s : String)
deriving DecidableEq

/-- Python dict modelled as an insertion-ordered association list. -/
abbrev AList := List (String × Value)

/-- First value bound to `k`, scanning from the front (dict keys are
unique, so this is dict lookup). -/
def alookup (k : String) : AList → Option Value
  | [] => none
  | (k', v) :: t => if k' = k then some v else alookup k t

/-- Python `d[k] = v`: overwrite in place if present, else append;
preserves insertion order exactly as CPython dicts do. -/
def dictInsert (d : AList) (k : String) (v : Value) : AList :=
  if d.any (fun p => p.1 = k) then
    d.map (fun p => if p.1 = k then (k, v) else p)
  else d ++ [(k, v)]

/-- Python `d.update(e)`: insert every binding of `e` into `d` in order,
overwriting existing keys. -/
def dictUpdate (d e : AList) : AList :=
  e.foldl (fun d p => dictInsert d p.1 p.2) d

/-- The guarded merge used for the two catch-all sweeps:
`for key, value in items: if key not in data: data[key] = value`. -/
def mergeOnlyNew (d e : AList) : AList :=
  e.foldl (fun d p => if (alookup p.1 d).isSome then d else d ++ [p]) d

/-- `soup.find(attrs={'name': tag})`: first element carrying the
attribute value, in document order. -/
def findByName (doc : List Elem) (tag : String) : Option Elem :=
  doc.find? (fun e => e.name = tag)

/-- `soup.find(attrs={'name': tag, 'contextref': ctx})`. -/
def findByNameCtx (doc : List Elem) (tag ctx : String) : Option Elem :=
  doc.find? (fun e => e.name = tag && e.contextref = ctx)

/-- Model of `_parse_financial_value`: strip the text, delete commas,
treat `''` and the two dash glyphs as absent, parse the rest as a float,
and negate the parsed value when the `sign` attribute equals `-`. -/
def parseFinancialValue (e : Elem) : Option ℚ :=
  let t := strReplace (strTrim e.text) "," ""
  if t = "" || t = "－" || t = "-" then none
  else
    match pyFloat t with
    | none => none
    | some v => some (if e.sign = "-" then -v else v)

/-- The income-statement item table of
`_extract_comprehensive_income_statement`. -/
def incomeItems : List (String × String × String) :=
  [("net_sales_current", "tse-ed-t:NetSales", "CurrentYearDuration_ConsolidatedMember_ResultMember"),
   ("net_sales_prior", "tse-ed-t:NetSales", "PriorYearDuration_ConsolidatedMember_ResultMember"),
   ("operating_income_current", "tse-ed-t:OperatingIncome", "CurrentYearDuration_ConsolidatedMember_ResultMember"),
   ("operating_income_prior", "tse-ed-t:OperatingIncome", "PriorYearDuration_ConsolidatedMember_ResultMember"),
   ("ordinary_income_current", "tse-ed-t:OrdinaryIncome", "CurrentYearDuration_ConsolidatedMember_ResultMember"),
   ("ordinary_income_prior", "tse-ed-t:OrdinaryIncome", "PriorYearDuration_ConsolidatedMember_ResultMember"),
   ("profit_attributable_to_owners_current", "tse-ed-t:ProfitAttributableToOwnersOfParent", "CurrentYearDuration_ConsolidatedMember_ResultMember"),
   ("profit_attributable_to_owners_prior", "tse-ed-t:ProfitAttributableToOwnersOfParent", "PriorYearDuration_ConsolidatedMember_ResultMember"),
   ("comprehensive_income_current", "tse-ed-t:ComprehensiveIncome", "CurrentYearDuration_ConsolidatedMember_ResultMember"),
   ("comprehensive_income_prior", "tse-ed-t:ComprehensiveIncome", "PriorYearDuration_ConsolidatedMember_ResultMember"),
   ("investment_profit_loss_current", "tse-ed-t:InvestmentProfitLossOnEquityMethod", "CurrentYearDuration_ConsolidatedMember_ResultMember"),
   ("investment_profit_loss_prior", "tse-ed-t:InvestmentProfitLossOnEquityMethod", "PriorYearDuration_ConsolidatedMember_ResultMember")]

/-- The balance-sheet item table of
`_extract_comprehensive_balance_sheet`. -/
def balanceItems : List (String × String × String) :=
  [("total_assets_current", "tse-ed-t:TotalAssets", "CurrentYearInstant_ConsolidatedMember_ResultMember"),
   ("total_assets_prior", "tse-ed-t:TotalAssets", "PriorYearInstant_ConsolidatedMember_ResultMember"),
   ("net_assets_current", "tse-ed-t:NetAssets", "CurrentYearInstant_ConsolidatedMember_ResultMember"),
   ("net_assets_prior", "tse-ed-t:NetAssets", "PriorYearInstant_ConsolidatedMember_ResultMember"),
   ("owners_equity_current", "tse-ed-t:OwnersEquity", "CurrentYearInstant_ConsolidatedMember_ResultMember"),
   ("owners_equity_prior", "tse-ed-t:OwnersEquity", "PriorYearInstant_ConsolidatedMember_ResultMember")]

/-- The cash-flow item table of `_extract_cash_flow_data`. -/
def cfItems : List (String × String × String) :=
  [("operating_cash_flow_current", "tse-ed-t:CashFlowsFromOperatingActivities", "CurrentYearDuration_ConsolidatedMember_ResultMember"),
   ("operating_cash_flow_prior", "tse-ed-t:CashFlowsFromOperatingActivities", "PriorYearDuration_ConsolidatedMember_ResultMember"),
   ("investing_cash_flow_current", "tse-ed-t:CashFlowsFromInvestingActivities", "CurrentYearDuration_ConsolidatedMember_ResultMember"),
   ("investing_cash_flow_prior", "tse-ed-t:CashFlowsFromInvestingActivities", "PriorYearDuration_ConsolidatedMember_ResultMember"),
   ("financing_cash_flow_current", "tse-ed-t:CashFlowsFromFinancingActivities", "CurrentYearDuration_ConsolidatedMember_ResultMember"),
   ("financing_cash_flow_prior", "tse-ed-t:CashFlowsFromFinancingActivities", "PriorYearDuration_ConsolidatedMember_ResultMember"),
   ("cash_and_equivalents_current", "tse-ed-t:CashAndEquivalentsEndOfPeriod", "CurrentYearInstant_ConsolidatedMember_ResultMember"),
   ("cash_and_equivalents_prior", "tse-ed-t:CashAndEquivalentsEndOfPeriod", "PriorYearInstant_ConsolidatedMember_ResultMember")]

/-- The ratio/indicator item table of `_extract_ratios_and_indicators`. -/
def ratioItems : List (String × String × String) :=
  [("eps_current", "tse-ed-t:NetIncomePerShare", "CurrentYearDuration_ConsolidatedMember_ResultMember"),
   ("eps_prior", "tse-ed-t:NetIncomePerShare", "PriorYearDuration_ConsolidatedMember_ResultMember"),
   ("bps_current", "tse-ed-t:NetAssetsPerShare", "CurrentYearInstant_ConsolidatedMember_ResultMember"),
   ("bps_prior", "tse-ed-t:NetAssetsPerShare", "PriorYearInstant_ConsolidatedMember_ResultMember"),
   ("roe_current", "tse-ed-t:NetIncomeToShareholdersEquityRatio", "CurrentYearDuration_ConsolidatedMember_ResultMember"),
   ("roe_prior", "tse-ed-t:NetIncomeToShareholdersEquityRatio", "PriorYearDuration_ConsolidatedMember_ResultMember"),
   ("roa_current", "tse-ed-t:OrdinaryIncomeToTotalAssetsRatio", "CurrentYearDuration_ConsolidatedMember_ResultMember"),
   ("roa_prior", "tse-ed-t:OrdinaryIncomeToTotalAssetsRatio", "PriorYearDuration_ConsolidatedMember_ResultMember"),
   ("operating_margin_current", "tse-ed-t:OperatingIncomeToNetSalesRatio", "CurrentYearDuration_ConsolidatedMember_ResultMember"),
   ("operating_margin_prior", "tse-ed-t:OperatingIncomeToNetSalesRatio", "PriorYearDuration_ConsolidatedMember_ResultMember"),
   ("equity_ratio_current", "tse-ed-t:CapitalAdequacyRatio", "CurrentYearInstant_ConsolidatedMember_ResultMember"),
   ("equity_ratio_prior", "tse-ed-t:CapitalAdequacyRatio", "PriorYearInstant_ConsolidatedMember_ResultMember"),
   ("payout_ratio_current", "tse-ed-t:PayoutRatio", "CurrentYearDuration_ConsolidatedMember_ResultMember"),
   ("average_shares_current", "tse-ed-t:AverageNumberOfShares", "CurrentYearDuration_ConsolidatedMember_ResultMember"),
   ("issued_shares_current", "tse-ed-t:NumberOfIssuedAndOutstandingSharesAtTheEndOfFiscalYearIncludingTreasuryStock", "CurrentYearInstant_ConsolidatedMember_ResultMember")]

/-- The dividend/share item table of `_extract_dividend_and_share_info`. -/
def dividendItems : List (String × String × String) :=
  [("dividend_per_share_current", "tse-ed-t:DividendPerShare", "CurrentYearDuration_ConsolidatedMember_ResultMember"),
   ("total_dividend_current", "tse-ed-t:TotalDividendPaidAnnual", "CurrentYearDuration_ConsolidatedMember_ResultMember"),
   ("shareholder_meeting_date", "tse-ed-t:DateOfGeneralShareholdersMeetingAsPlanned", "CurrentYearInstant"),
   ("dividend_payment_date", "tse-ed-t:DividendPayableDateAsPlanned", "CurrentYearInstant"),
   ("securities_report_date", "tse-ed-t:AnnualSecuritiesReportFilingDateAsPlanned", "CurrentYearInstant")]

/-- The other-items table of `_extract_other_important_items`. -/
def otherItems : List (String × String × String) :=
  [("fiscal_year_end", "tse-ed-t:FiscalYearEnd", "CurrentYearInstant"),
   ("treasury_stock_count", "tse-ed-t:NumberOfTreasuryStockAtTheEndOfFiscalYear", "CurrentYearInstant_NonConsolidatedMember_ResultMember"),
   ("new_subsidiaries_count", "tse-ed-t:NumberOfSubsidiariesNewlyConsolidated", "CurrentYearDuration_ConsolidatedMember_ResultMember"),
   ("new_subsidiaries_names", "tse-ed-t:NameOfSubsidiariesNewlyConsolidated", "CurrentYearDuration_ConsolidatedMember_ResultMember")]

/-- The curated balance-sheet detail table of
`_extract_detailed_financial_data` (jppfs_cor namespace). -/
def detailedItems : List (String × String × String) :=
  [("cash_and_deposits_current", "jppfs_cor:CashAndDeposits", "CurrentYearInstant"),
   ("cash_and_deposits_prior", "jppfs_cor:CashAndDeposits", "Prior1YearInstant"),
   ("accounts_receivable_current", "jppfs_cor:NotesAndAccountsReceivableTradeAndContractAssets", "CurrentYearInstant"),
   ("accounts_receivable_prior", "jppfs_cor:NotesAndAccountsReceivableTradeAndContractAssets", "Prior1YearInstant"),
   ("inventory_current", "jppfs_cor:MerchandiseAndFinishedGoods", "CurrentYearInstant"),
   ("inventory_prior", "jppfs_cor:MerchandiseAndFinishedGoods", "Prior1YearInstant"),
   ("work_in_process_current", "jppfs_cor:WorkInProcess", "CurrentYearInstant"),
   ("work_in_process_prior", "jppfs_cor:WorkInProcess", "Prior1YearInstant"),
   ("raw_materials_current", "jppfs_cor:RawMaterialsAndSupplies", "CurrentYearInstant"),
   ("raw_materials_prior", "jppfs_cor:RawMaterialsAndSupplies", "Prior1YearInstant")]

/-- The shared extraction loop of the four numeric curated passes
(income, balance sheet, cash flow, ratios) and the detailed pass: for each
`(key, tag, contextref)` row, look the element up and record the parsed
value when both exist. -/
def extractItems (doc : List Elem) : List (String × String × String) → AList → AList
  | [], d => d
  | (key, tag, ctx) :: rest, d =>
    let d2 :=
      match findByNameCtx doc tag ctx with
      | some e =>
        match parseFinancialValue e with
        | some v => dictInsert d key (Value.num v)
        | none => d
      | none => d
    extractItems doc rest d2

/-- Loop of `_extract_dividend_and_share_info`: keys containing `date`
store the ISO-normalized element text (even when empty), the rest store
parsed numbers when present. -/
def extractDividendLoop (doc : List Elem) : List (String × String × String) → AList → AList
  | [], d => d
  | (key, tag, ctx) :: rest, d =>
    let d2 :=
      match findByNameCtx doc tag ctx with
      | some e =>
        if strContains key "date" then
          dictInsert d key (Value.str (formatDateToIso (strTrim e.text)))
        else
          match parseFinancialValue e with
          | some v => dictInsert d key (Value.num v)
          | none => d
      | none => d
    extractDividendLoop doc rest d2

/-- `_extract_dividend_and_share_info`. -/
def extractDividend (doc : List Elem) : AList :=
  extractDividendLoop doc dividendItems []

/-- Loop of `_extract_other_important_items`: `fiscal_year_end` stores an
ISO-normalized date, `new_subsidiaries_names` the raw stripped text, the
rest parsed numbers when present. -/
def extractOtherLoop (doc : List Elem) : List (String × String × String) → AList → AList
  | [], d => d
  | (key, tag, ctx) :: rest, d =>
    let d2 :=
      match findByNameCtx doc tag ctx with
      | some e =>
        if key = "fiscal_year_end" then
          dictInsert d key (Value.str (formatDateToIso (strTrim e.text)))
        else if key = "new_subsidiaries_names" then
          dictInsert d key (Value.str (strTrim e.text))
        else
          match parseFinancialValue e with
          | some v => dictInsert d key (Value.num v)
          | none => d
      | none => d
    extractOtherLoop doc rest d2

/-- `_extract_other_important_items`. -/
def extractOther (doc : List Elem) : AList :=
  extractOtherLoop doc otherItems []

/-- The general-business dialect of the company-info mapping table
(`company_item_mappings[0]`). -/
def companyDialectGeneral : List (String × List String) :=
  [("company_name", ["tse-ed-t:CompanyName"]),
   ("securities_code", ["tse-ed-t:SecuritiesCode"]),
   ("document_name", ["tse-ed-t:DocumentName"]),
   ("representative_title", ["tse-ed-t:TitleRepresentative"]),
   ("representative_name", ["tse-ed-t:NameRepresentative"]),
   ("inquiries_title", ["tse-ed-t:TitleInquiries"]),
   ("inquiries_name", ["tse-ed-t:NameInquiries"]),
   ("tel", ["tse-ed-t:Tel"]),
   ("url", ["tse-ed-t:URL"])]

/-- The REIT dialect of the company-info mapping table
(`company_item_mappings[1]`). -/
def companyDialectReit : List (String × List String) :=
  [("company_name", ["tse-re-t:IssuerNameREIT"]),
   ("securities_code", ["tse-re-t:SecuritiesCode"]),
   ("document_name", ["tse-re-t:DocumentName"]),
   ("representative_title", ["tse-re-t:TitleRepresentative"]),
   ("representative_name", ["tse-re-t:NameRepresentative"]),
   ("inquiries_title", ["tse-re-t:TitleInquiries"]),
   ("inquiries_name", ["tse-re-t:NameInquiries"]),
   ("tel", ["tse-re-t:Tel"]),
   ("url", ["tse-re-t:URL"])]

/-- The ordered dialect list scanned by
`_extract_comprehensive_company_info`. -/
def companyDialects : List (List (String × List String)) :=
  [companyDialectGeneral, companyDialectReit]

/-- The key list used when no dialect matched anything: every company
field is bound to the empty string. -/
def companyFallbackKeys : List String :=
  ["company_name", "securities_code", "document_name",
   "representative_title", "representative_name",
   "inquiries_title", "inquiries_name", "tel", "url"]

/-- `for xbrl_tag in xbrl_tags: elem = soup.find(...)`: first tag of the
list present in the document. -/
def firstFoundElem (doc : List Elem) : List String → Option Elem
  | [] => none
  | t :: ts =>
    match findByName doc t with
    | some e => some e
    | none => firstFoundElem doc ts

/-- Per-field post-processing of the company-info pass: strip the text
and, for the securities code, delete every whitespace character
(`re.sub(r'\s+', '', value)`). -/
def processCompanyValue (key : String) (e : Elem) : String :=
  let v := strTrim e.text
  if key = "securities_code" then removeAllSpace v else v

/-- The trailing `if key not in temp_data: temp_data[key] = ''` of the
company-info inner loop. -/
def companyPost (key : String) (d : AList) : AList :=
  if (alookup key d).isSome then d else dictInsert d key (Value.str "")

/-- Inner loop of `_extract_comprehensive_company_info` for one dialect:
record the first matching tag's processed text and flip `found_data`,
then bind the key to `''` when it is still absent. -/
def companyLoop (doc : List Elem) : List (String × List String) → AList → Bool → AList × Bool
  | [], d, found => (d, found)
  | (key, tags) :: rest, d, found =>
    match firstFoundElem doc tags with
    | some e =>
      companyLoop doc rest
        (companyPost key (dictInsert d key (Value.str (processCompanyValue key e)))) true
    | none => companyLoop doc rest (companyPost key d) found

/-- Dialect scan of `_extract_comprehensive_company_info`: the first
dialect with any hit wins; when none hits, every company field is `''`. -/
def companyScan (doc : List Elem) : List (List (String × List String)) → AList
  | [] => companyFallbackKeys.foldl (fun d k => dictInsert d k (Value.str "")) []
  | m :: ms =>
    if (companyLoop doc m [] false).2 then (companyLoop doc m [] false).1
    else companyScan doc ms

/-- `_extract_comprehensive_company_info`. -/
def companyInfo (doc : List Elem) : AList :=
  companyScan doc companyDialects

/-- Suffix rule of the tse-ed-t catch-all sweep
(`_extract_all_tse_items`): current is probed before prior before
forecast, and within current/prior a `Duration` marker beats an `Instant`
marker; no marker leaves the key bare. -/
def tseSuffix (ctx : String) : String :=
  if strContains ctx "CurrentYear" then
    if strContains ctx "Duration" then "_current"
    else if strContains ctx "Instant" then "_currentyear"
    else ""
  else if strContains ctx "PriorYear" || strContains ctx "Prior1Year" then
    if strContains ctx "Duration" then "_prior"
    else if strContains ctx "Instant" then "_prioryear"
    else ""
  else if strContains ctx "NextYear" then "_forecast"
  else ""

/-- Key built by the tse-ed-t catch-all sweep: namespace prefix removed
(`str.replace`), bucket suffix appended. -/
def tseKey (e : Elem) : String :=
  strReplace e.name "tse-ed-t:" "" ++ tseSuffix e.contextref

/-- Suffix rule of the jppfs_cor catch-all sweep
(`_extract_all_jppfs_items`): instant contexts get `_current`/`_prior`,
duration contexts get `_duration_current`/`_duration_prior`, and there is
no forecast case. -/
def jppfsSuffix (ctx : String) : String :=
  if strContains ctx "CurrentYearInstant" then "_current"
  else if strContains ctx "Prior1YearInstant" || strContains ctx "PriorYearInstant" then "_prior"
  else if strContains ctx "CurrentYearDuration" then "_duration_current"
  else if strContains ctx "PriorYearDuration" then "_duration_prior"
  else ""

/-- Key built by the jppfs_cor catch-all sweep. -/
def jppfsKey (e : Elem) : String :=
  strReplace e.name "jppfs_cor:" "" ++ jppfsSuffix e.contextref

/-- Loop of `_extract_all_tse_items` over the elements whose `name`
matches `^tse-ed-t:`: skip empty texts, store parsed numbers, otherwise
store the text as a string (ISO-normalized when it looks like a Japanese
date), skipping the `－` placeholder; assignment overwrites, so within
this sweep the last occurrence of a key wins. -/
def tseLoop : List Elem → AList → AList
  | [], d => d
  | e :: rest, d =>
    let key := tseKey e
    let text := strTrim e.text
    let d2 :=
      if text = "" then d
      else
        match parseFinancialValue e with
        | some v => dictInsert d key (Value.num v)
        | none =>
          if text ≠ "" && text ≠ "－" then
            if strContains text "年" && strContains text "月" then
              dictInsert d key (Value.str (formatDateToIso text))
            else dictInsert d key (Value.str text)
          else d
    tseLoop rest d2

/-- `_extract_all_tse_items`. -/
def extractAllTse (doc : List Elem) : AList :=
  tseLoop (doc.filter (fun e => strStartsWith e.name "tse-ed-t:")) []

/-- An attachment directory: the `.htm` files it contains, as
(filename, parsed document) pairs in directory order. -/
abbrev AttachmentDir := List (String × List Elem)

/-- Model of the glob pattern `*acbs01*ixbrl.htm`: the name ends in
`ixbrl.htm` and `acbs01` occurs before that suffix. -/
def matchesAcbsGlob (fname : String) : Bool :=
  strEndsWith fname "ixbrl.htm" &&
    containsChars "acbs01".data (fname.data.take (fname.data.length - 9))

/-- `_extract_detailed_financial_data`: the first `*acbs01*ixbrl.htm`
file of the attachment directory, run through the curated jppfs_cor
balance-sheet detail table; no such file yields the empty mapping. -/
def extractDetailed (att : AttachmentDir) : AList :=
  match (att.filter (fun f => matchesAcbsGlob f.1)).head? with
  | some f => extractItems f.2 detailedItems []
  | none => []

/-- Inner loop of `_extract_all_jppfs_items` over the `jppfs_cor:`
elements of one file: a key already collected is skipped (first
occurrence wins within this sweep), and only parsed numbers are stored. -/
def jppfsLoop : List Elem → AList → AList
  | [], d => d
  | e :: rest, d =>
    let key := jppfsKey e
    let d2 :=
      if (alookup key d).isSome then d
      else
        match parseFinancialValue e with
        | some v => d ++ [(key, Value.num v)]
        | none => d
    jppfsLoop rest d2

/-- `_extract_all_jppfs_items`: every `*.htm` file of the attachment
directory is swept in order. -/
def extractAllJppfs (att : AttachmentDir) : AList :=
  (att.filter (fun f => strEndsWith f.1 ".htm")).foldl
    (fun d f => jppfsLoop (f.2.filter (fun e => strStartsWith e.name "jppfs_cor:")) d) []

/-- Steps 1–8 of `extract_comprehensive_financial_data`: the `date` field
seeded from `tse-ed-t:FilingDate` (possibly `''`), then the curated
summary passes merged with plain `dict.update`. -/
def curatedSummary (doc : List Elem) : AList :=
  let dateVal : Value :=
    match findByName doc "tse-ed-t:FilingDate" with
    | some e => Value.str (formatDateToIso (strTrim e.text))
    | none => Value.str ""
  let d1 := dictInsert [] "date" dateVal
  let d2 := dictUpdate d1 (companyInfo doc)
  let d3 := dictUpdate d2 (extractItems doc incomeItems [])
  let d4 := dictUpdate d3 (extractItems doc balanceItems [])
  let d5 := dictUpdate d4 (extractItems doc cfItems [])
  let d6 := dictUpdate d5 (extractItems doc ratioItems [])
  let d7 := dictUpdate d6 (extractDividend doc)
  dictUpdate d7 (extractOther doc)

/-- Steps 1–9 of `extract_comprehensive_financial_data`: the curated
summary passes followed by the tse-ed-t catch-all sweep, which merges
only keys not already present. -/
def summaryProfile (doc : List Elem) : AList :=
  mergeOnlyNew (curatedSummary doc) (extractAllTse doc)

/-- Step 10 of `extract_comprehensive_financial_data`: the curated
attachment balance-sheet detail pass, merged with plain `dict.update`
(overwriting existing keys). -/
def withDetailed (doc : List Elem) (att : AttachmentDir) : AList :=
  dictUpdate (summaryProfile doc) (extractDetailed att)

/-- `extract_comprehensive_financial_data`: the summary profile, and when
an attachment directory is supplied also the curated detail pass
(`dict.update`) followed by the jppfs_cor catch-all sweep (only new
keys).  File I/O and its exception fallback are outside the model: the
function takes the parsed summary document and attachment directory. -/
def extractComprehensive (doc : List Elem) (att : Option AttachmentDir) : AList :=
  match att with
  | none => summaryProfile doc
  | some a => mergeOnlyNew (withDetailed doc a) (extractAllJppfs a)

/-- Python truthiness of a record value (`''` and `0` are falsy). -/
def valueTruthy : Value → Bool
  | Value.num v => v ≠ 0
  | Value.str s => s ≠ ""

/-- The acceptance test of `extract_comprehensive_data_from_directory`
for one filing: `if comprehensive_data and
comprehensive_data.get('company_name')`. -/
def keepFiling (d : AList) : Bool :=
  !d.isEmpty &&
    (match alookup "company_name" d with
     | some v => valueTruthy v
     | none => false)

/-- The inclusion keyword table of `is_financial_item`
(`financial_keywords`), transcribed verbatim, duplicates included. -/
def financialKeywords : List String :=
  ["Sales", "sales", "Revenue", "revenue",
   "Income", "income", "Profit", "profit",
   "Loss", "loss", "Expense", "expense",
   "Cost", "cost", "Margin", "margin",
   "Asset", "asset", "Cash", "cash",
   "Deposit", "deposit", "Receivable", "receivable",
   "Inventory", "inventory", "Property", "property",
   "Equipment", "equipment", "Investment", "investment",
   "Goodwill", "goodwill",
   "Liability", "liability", "Payable", "payable",
   "Debt", "debt", "Loan", "loan",
   "Obligation", "obligation", "Provision", "provision",
   "Equity", "equity", "Capital", "capital",
   "Surplus", "surplus", "Retained", "retained",
   "Treasury", "treasury",
   "CashFlow", "cashflow", "CF", "cf",
   "Operating", "operating", "Investing", "investing",
   "Financing", "financing",
   "Share", "share", "Stock", "stock",
   "Dividend", "dividend", "EPS", "eps",
   "BPS", "bps", "DPS", "dps",
   "Ratio", "ratio", "Rate", "rate",
   "ROE", "roe", "ROA", "roa", "ROI", "roi",
   "Adequacy", "adequacy", "Payout", "payout",
   "Depreciation", "depreciation", "Amortization", "amortization",
   "Allowance", "allowance", "Accumulated", "accumulated",
   "Deferred", "deferred", "Tax", "tax",
   "Valuation", "valuation", "Comprehensive", "comprehensive",
   "Attributable", "attributable", "Controlling", "controlling",
   "Working", "working", "Fixed", "fixed",
   "Current", "current", "Noncurrent", "noncurrent",
   "Prior", "prior", "Previous", "previous",
   "Quarter", "quarter", "Period", "period",
   "Year", "year", "Annual", "annual",
   "Fiscal", "fiscal", "Average", "average",
   "Total", "total", "Net", "net",
   "Gross", "gross", "Operating", "operating",
   "Ordinary", "ordinary", "Extraordinary", "extraordinary",
   "Special", "special", "Other", "other",
   "Before", "before", "After", "after",
   "Beginning", "beginning", "End", "end",
   "Increase", "increase", "Decrease", "decrease",
   "Change", "change", "Adjustment", "adjustment",
   "Balance", "balance", "Amount", "amount",
   "Number", "number", "Issued", "issued",
   "Outstanding", "outstanding", "Consolidated", "consolidated",
   "NonConsolidated", "nonconsolidated", "Segment", "segment",
   "Business", "business", "Account", "account",
   "Statement", "statement", "Result", "result",
   "Forecast", "forecast", "Plan", "plan",
   "Budget", "budget", "Actual", "actual",
   "Member", "member", "Mark", "mark"]

/-- The exclusion keyword table of `is_financial_item`
(`non_financial_keywords`), transcribed verbatim. -/
def nonFinancialKeywords : List String :=
  ["CompanyName", "company_name",
   "DocumentName", "document_name",
   "FilingDate", "filing_date", "date",
   "SecuritiesCode", "securities_code",
   "Tel", "tel", "URL", "url",
   "Representative", "representative",
   "Inquiries", "inquiries",
   "Title", "title", "Name", "name",
   "TokyoStockExchange", "NagoyaStockExchange",
   "SapporoStockExchange", "FukuokaStockExchange",
   "JapanSecuritiesDealersAssociation",
   "GeneralBusiness", "SpecificBusiness",
   "FASF", "fasf", "Supplemental", "supplemental",
   "Convening", "convening", "Briefing", "briefing",
   "TargetAudience", "WayOfGetting",
   "Note", "note", "Preamble", "preamble",
   "AccountingPolicy", "AccountingPolicies",
   "AccountingEstimate", "AccountingEstimates",
   "Retrospective", "retrospective",
   "Restatement", "restatement",
   "SignificantChanges", "significantchanges",
   "ApplyingOfSpecific", "applyingofspecific",
   "ChangesBasedOnRevisions", "changesbasedonrevisions",
   "ChangesOtherThan", "changesotherthan",
   "NoteTo", "noteto", "SubsidiariesNewly", "subsidiariesnewly",
   "SubsidiariesExcluded", "subsidiariesexcluded",
   "NameOf", "nameof", "Fraction", "fraction",
   "Processing", "processing", "Method", "method"]

/-- `any(keyword.lower() in key_lower for keyword in keywords)`. -/
def matchesAnyKeyword (keywords : List String) (keyLower : String) : Bool :=
  keywords.any (fun kw => strContains keyLower (strLower kw))

/-- Model of `is_financial_item`: lower-case the key, exclude on any
exclusion-keyword substring hit, otherwise include on any
inclusion-keyword substring hit, default to exclusion. -/
def isFinancialItem (key : String) : Bool :=
  let kl := strLower key
  if matchesAnyKeyword nonFinancialKeywords kl then false
  else if matchesAnyKeyword financialKeywords kl then true
  else false

/-- One disclosure-list row record as built by `fetch_xbrl_list`: the
cell texts (absent cells stay `None`, modelled `none`) and the XBRL
package URL, which is always set when the record is created. -/
structure DiscRecord where
  time : Option String
  code : Option String
  name : Option String
  title : Option String
  pdfUrl : Option String
  xbrlUrl : String
  place : Option String
  history : Option String
deriving DecidableEq

/-- An anchor element inside a table cell: its text and optional `href`. -/
structure Anchor where
  text : String
  href : Option String
deriving DecidableEq

/-- One `td` cell of a disclosure-list row: its CSS classes, its text and
its first anchor, if any. -/
structure Cell where
  classes : List String
  text : String
  anchor : Option Anchor
deriving DecidableEq

/-- The TDnet list-page base URL that row links are joined against. -/
def tdnetBase : String := "https://www.release.tdnet.info/inbs/"

/-- Model of `urllib.parse.urljoin(base, ref)` restricted to the
reference shapes the portal serves: an empty (or `None`) reference yields
the base, an absolute URL replaces it, and a relative file name is
appended to the base directory. -/
def urljoin (base ref : String) : String :=
  if ref = "" then base
  else if strContains ref "://" then ref
  else base ++ ref

/-- The eight per-row variables of `fetch_xbrl_list`, all starting at
`None`. -/
structure RowState where
  time : Option String
  code : Option String
  name : Option String
  title : Option String
  pdfUrl : Option String
  xbrl : Option String
  place : Option String
  history : Option String

/-- The empty row state. -/
def initRowState : RowState :=
  ⟨none, none, none, none, none, none, none, none⟩

/-- The `if/elif` chain over one `td` cell's class list in
`fetch_xbrl_list` (including the source's `kjHistroy` spelling). -/
def parseCell (st : RowState) (c : Cell) : RowState :=
  if c.classes.contains "kjTime" then { st with time := some (strTrim c.text) }
  else if c.classes.contains "kjCode" then { st with code := some (strTrim c.text) }
  else if c.classes.contains "kjName" then { st with name := some (strTrim c.text) }
  else if c.classes.contains "kjPlace" then { st with place := some (strTrim c.text) }
  else if c.classes.contains "kjHistroy" then { st with history := some (strTrim c.text) }
  else if c.classes.contains "kjTitle" then
    match c.anchor with
    | some a =>
      { st with title := some (strTrim a.text),
                pdfUrl := some (urljoin tdnetBase (a.href.getD "")) }
    | none => st
  else if c.classes.contains "kjXbrl" then
    match c.anchor with
    | some a => { st with xbrl := some (urljoin tdnetBase (a.href.getD "")) }
    | none => st
  else st

/-- One table row of `fetch_xbrl_list`: fold the cells, then keep the row
only when the XBRL link is truthy. -/
def parseRow (cells : List Cell) : Option DiscRecord :=
  let st := cells.foldl parseCell initRowState
  match st.xbrl with
  | some u =>
    if u ≠ "" then
      some ⟨st.time, st.code, st.name, st.title, st.pdfUrl, u, st.place, st.history⟩
    else none
  | none => none

/-- The transport outcome of one page request: a parsed table (the rows
of `table#main-list-table`), a non-2xx HTTP status (which
`raise_for_status` turns into an `HTTPError`), or a network failure
(a `ConnectionError`-like `RequestException`). -/
inductive Transport where
  | success (rows : List (List Cell))
  | httpStatus (code : Nat)
  | networkFailure
deriving DecidableEq

/-- The Python exceptions the transport can raise; both are subclasses of
`requests.exceptions.RequestException`. -/
inductive PyExc where
  | httpError (code : Nat)
  | connectionError
deriving DecidableEq

/-- Is the exception a `requests.exceptions.RequestException` (the class
caught by `fetch_xbrl_list`)? -/
def isRequestException : PyExc → Bool
  | PyExc.httpError _ => true
  | PyExc.connectionError => true

/-- The body of `fetch_xbrl_list`'s `try` block: `raise_for_status`
raises on a non-2xx status, a network failure raises, and a successful
response is parsed row by row. -/
def fetchXbrlListRaw (t : Transport) : Except PyExc (List DiscRecord) :=
  match t with
  | Transport.success rows => Except.ok (rows.filterMap parseRow)
  | Transport.httpStatus c => Except.error (PyExc.httpError c)
  | Transport.networkFailure => Except.error PyExc.connectionError

/-- Model of `fetch_xbrl_list`: the `try` body with the
`except requests.exceptions.RequestException: return []` handler. -/
def fetchXbrlList (t : Transport) : Except PyExc (List DiscRecord) :=
  match fetchXbrlListRaw t with
  | Except.ok l => Except.ok l
  | Except.error e =>
    if isRequestException e then Except.ok [] else Except.error e

/-- The page loop of `fetch_all_pages_xbrl` catches `HTTPError` escaping
its body; this models whether that branch fires for a call of
`fetch_xbrl_list` on the given transport outcome. -/
def pageLoopHTTPErrorCaught (t : Transport) : Bool :=
  match fetchXbrlList t with
  | Except.error (PyExc.httpError _) => true
  | _ => false

/-- The page-count computation of `fetch_all_pages_xbrl`: a parsed
`全n件` banner with `n > 0` yields `ceil(n / 100)` pages; an unparsable
banner or a banner-fetch error falls back to the hard 20-page cap. -/
def totalPagesOf (banner : Option Nat) : Nat :=
  match banner with
  | some n => if n > 0 then (n + 99) / 100 else 20
  | none => 20

/-- The page loop of `fetch_all_pages_xbrl`, recursing on the number of
pages left to visit: page 1 reuses the pre-fetched records (issuing no
request), later pages issue one request each; a page with zero records
breaks the loop after its request; otherwise its XBRL-bearing records are
accumulated.  Returns the pages requested inside the loop and the
accumulated records. -/
def crawlGo (portal : Nat → List DiscRecord) : Nat → Nat → List Nat × List DiscRecord
  | 0, _ => ([], [])
  | remaining + 1, page =>
    let recs := portal page
    let reqs : List Nat := if page = 1 then [] else [page]
    if recs = [] then (reqs, [])
    else
      (reqs ++ (crawlGo portal remaining (page + 1)).1,
       recs.filter (fun r => r.xbrlUrl ≠ "") ++ (crawlGo portal remaining (page + 1)).2)

/-- The final dedup loop of `fetch_all_pages_xbrl`: walk the accumulated
records with a seen-URL set; the first record of each non-empty URL is
kept in order, later records with a seen URL bump the duplicate counter,
and records with an empty URL are dropped silently. -/
def dedupGo : List DiscRecord → List String → List DiscRecord × Nat
  | [], _ => ([], 0)
  | r :: rest, seen =>
    if r.xbrlUrl ≠ "" ∧ r.xbrlUrl ∉ seen then
      (r :: (dedupGo rest (r.xbrlUrl :: seen)).1, (dedupGo rest (r.xbrlUrl :: seen)).2)
    else if r.xbrlUrl ≠ "" then
      ((dedupGo rest seen).1, (dedupGo rest seen).2 + 1)
    else dedupGo rest seen

/-- `fetch_all_pages_xbrl`'s dedup pass over the accumulated records. -/
def dedupRecords (rs : List DiscRecord) : List DiscRecord × Nat :=
  dedupGo rs []

/-- Model of `fetch_all_pages_xbrl` over an abstract portal (page number
→ records returned by `fetch_xbrl_list`, which never raises) and an
abstract banner outcome.  Returns the ordered list of page requests
issued (the pre-loop page-1 fetch, the banner re-fetch of page 1, then
the loop's requests), the deduplicated records, and the duplicate
counter. -/
def fetchAllPagesXbrl (portal : Nat → List DiscRecord) (banner : Option Nat) :
    List Nat × List DiscRecord × Nat :=
  let first := portal 1
  if first = [] then ([1], [], 0)
  else
    let total := totalPagesOf banner
    let (reqs, acc) := crawlGo portal total 1
    let (uniq, dups) := dedupRecords acc
    (1 :: 1 :: reqs, uniq, dups)

/-- The keys whose values the extractor can bind to the empty string:
`date`, the nine company-info fields (bound to `''` when unresolved), and
the five curated fields stored as raw/normalized text without an
emptiness check. -/
def emptyAllowedKeys : List String :=
  ["date", "company_name", "securities_code", "document_name",
   "representative_title", "representative_name", "inquiries_title",
   "inquiries_name", "tel", "url",
   "shareholder_meeting_date", "dividend_payment_date",
   "securities_report_date", "fiscal_year_end", "new_subsidiaries_names"]

/-- A binding is benign when its key is allowed to be empty or its value
is not the empty string (numbers are never empty). -/
abbrev GoodP (p : String × Value) : Prop :=
  p.1 ∈ emptyAllowedKeys ∨ p.2 ≠ Value.str ""

/-- Every binding of the mapping is benign. -/
abbrev GoodD (d : AList) : Prop := ∀ p ∈ d, GoodP p

/-- The REIT-dialect tag names of the company-info table (the only
curated summary tags outside the `tse-ed-t:` namespace). -/
def reitTags : List String :=
  ["tse-re-t:IssuerNameREIT", "tse-re-t:SecuritiesCode", "tse-re-t:DocumentName",
   "tse-re-t:TitleRepresentative", "tse-re-t:NameRepresentative",
   "tse-re-t:TitleInquiries", "tse-re-t:NameInquiries", "tse-re-t:Tel",
   "tse-re-t:URL"]

/-- The profile produced for a document in which no extraction pass
matches anything: `date` and the nine company-info keys, all bound to the
empty string. -/
def emptyProfile : AList :=
  [("date", Value.str ""), ("company_name", Value.str ""),
   ("securities_code", Value.str ""), ("document_name", Value.str ""),
   ("representative_title", Value.str ""), ("representative_name", Value.str ""),
   ("inquiries_title", Value.str ""), ("inquiries_name", Value.str ""),
   ("tel", Value.str ""), ("url", Value.str "")]

/-- A disclosure record carrying only an XBRL package URL (concrete test
input for the crawler theorems). -/
def sampleRec (u : String) : DiscRecord :=
  ⟨none, none, none, none, none, u, none, none⟩

/-- A three-page portal for the crawl-termination witness: pages 1 and 2
hold one record each, page 3 onward is empty. -/
def samplePortal (p : Nat) : List DiscRecord :=
  if p ≤ 2 then [sampleRec "u"] else []

/-! Theorems. -/

/-- C3 (counterexample): the claim says a sign indicator of `-` yields
the negated magnitude, so a text that parses negative would still yield a
negative result; but `_parse_financial_value` negates the parsed value,
so text `-5` with sign `-` yields `5`, which is positive and differs from
`-|-5| = -5`. -/
theorem tdC3_counterexample :
    parseFinancialValue ⟨"tse-ed-t:NetSales", "ctx", "-", "-5"⟩ = some 5 ∧
    -|(-5 : ℚ)| = -5 ∧ (5 : ℚ) ≠ -5 := by
  refine ⟨by decide, by decide, by decide⟩

/-- C3 (amended): whenever the processed text parses as a float and the
sign attribute equals `-`, `_parse_financial_value` returns the negation
of the parsed value (so a non-negative text such as `1,234` yields
`-1234`, but a text that itself parses negative yields its positive
magnitude). -/
theorem tdC3_amended (e : Elem) (v : ℚ)
    (hp : pyFloat (strReplace (strTrim e.text) "," "") = some v)
    (hs : e.sign = "-") :
    parseFinancialValue e = some (-v) := by
  unfold parseFinancialValue
  have h1 : strReplace (strTrim e.text) "," "" ≠ "" := by
    intro h
    rw [h, show pyFloat "" = none from by decide] at hp
    exact Option.noConfusion hp
  have h2 : strReplace (strTrim e.text) "," "" ≠ "－" := by
    intro h
    rw [h, show pyFloat "－" = none from by decide] at hp
    exact Option.noConfusion hp
  have h3 : strReplace (strTrim e.text) "," "" ≠ "-" := by
    intro h
    rw [h, show pyFloat "-" = none from by decide] at hp
    exact Option.noConfusion hp
  simp [h1, h2, h3, hp, hs]

/-- C3 (witness): text `1,234` with sign `-` parses to `1234` and the
parser returns `-1234`. -/
theorem tdC3_witness :
    pyFloat (strReplace (strTrim "1,234") "," "") = some 1234 ∧
    parseFinancialValue ⟨"tse-ed-t:NetSales", "ctx", "-", "1,234"⟩ = some (-1234) :=
  ⟨by decide, tdC3_amended ⟨"tse-ed-t:NetSales", "ctx", "-", "1,234"⟩ 1234 (by decide) rfl⟩

/-- C9: `is_financial_item` rejects `company_name`, `filing_date`, `tel`
and accepts `net_sales_current`, `total_assets_prior`,
`operating_cash_flow_current`; any key hit by an exclusion keyword is
rejected regardless of inclusion hits, and a key hit by neither list is
rejected by default. -/
theorem tdC9 :
    isFinancialItem "company_name" = false ∧
    isFinancialItem "filing_date" = false ∧
    isFinancialItem "tel" = false ∧
    isFinancialItem "net_sales_current" = true ∧
    isFinancialItem "total_assets_prior" = true ∧
    isFinancialItem "operating_cash_flow_current" = true ∧
    (∀ k, matchesAnyKeyword nonFinancialKeywords (strLower k) = true →
      isFinancialItem k = false) ∧
    (∀ k, matchesAnyKeyword nonFinancialKeywords (strLower k) = false →
      matchesAnyKeyword financialKeywords (strLower k) = false →
      isFinancialItem k = false) := by
  refine ⟨by decide, by decide, by decide, by decide, by decide, by decide, ?_, ?_⟩
  · intro k h
    unfold isFinancialItem
    simp [h]
  · intro k h1 h2
    unfold isFinancialItem
    simp [h1, h2]

/-- C9 (witness): `dividend_record_date` matches both lists and is
rejected (exclusion wins); `zzz` matches neither and is rejected. -/
theorem tdC9_witness :
    isFinancialItem "dividend_record_date" = false ∧ isFinancialItem "zzz" = false :=
  ⟨tdC9.2.2.2.2.2.2.1 "dividend_record_date" (by decide),
   tdC9.2.2.2.2.2.2.2 "zzz" (by decide) (by decide)⟩

/-- C10: `fetch_xbrl_list` returns an `ok` list for every transport
outcome (its `RequestException` handler turns all modelled failures into
`[]`), a not-found page is indistinguishable from a page with zero rows,
and the `HTTPError` branch of `fetch_all_pages_xbrl`'s page loop can
never fire. -/
theorem tdC10 :
    (∀ t : Transport, ∃ l, fetchXbrlList t = Except.ok l) ∧
    fetchXbrlList (Transport.httpStatus 404) = Except.ok [] ∧
    fetchXbrlList (Transport.success []) = Except.ok [] ∧
    (∀ t : Transport, pageLoopHTTPErrorCaught t = false) := by
  refine ⟨?_, rfl, rfl, ?_⟩
  · intro t
    cases t <;> exact ⟨_, rfl⟩
  · intro t
    cases t <;> rfl

/-- C4 (counterexample): the claim says both catch-all sweeps use the
same suffix rule, but on the same context `CurrentYearInstant` the
tse-ed-t sweep emits `Foo_currentyear` while the jppfs_cor sweep emits
`Foo_current`. -/
theorem tdC4_counterexample :
    extractAllTse [⟨"tse-ed-t:Foo", "CurrentYearInstant", "", "1"⟩] =
      [("Foo_currentyear", Value.num 1)] ∧
    extractAllJppfs [("a.htm", [⟨"jppfs_cor:Foo", "CurrentYearInstant", "", "1"⟩])] =
      [("Foo_current", Value.num 1)] ∧
    ("Foo_currentyear" : String) ≠ "Foo_current" := by
  refine ⟨by decide, by decide, by decide⟩

/-- C4 (amended): both sweeps strip the namespace and append a suffix
determined only by the context, but by different rules: the tse-ed-t
sweep uses `_current`/`_currentyear`/`_prior`/`_prioryear`/`_forecast`
(no suffix without a marker), while the jppfs_cor sweep uses `_current`
and `_prior` for instant contexts, `_duration_current` and
`_duration_prior` for duration contexts, and has no forecast case. -/
theorem tdC4_amended (ctx : String) :
    (strContains ctx "CurrentYear" = true → strContains ctx "Duration" = true →
      tseSuffix ctx = "_current") ∧
    (strContains ctx "CurrentYear" = true → strContains ctx "Duration" = false →
      strContains ctx "Instant" = true → tseSuffix ctx = "_currentyear") ∧
    (strContains ctx "CurrentYear" = false →
      (strContains ctx "PriorYear" = true ∨ strContains ctx "Prior1Year" = true) →
      strContains ctx "Duration" = true → tseSuffix ctx = "_prior") ∧
    (strContains ctx "CurrentYear" = false →
      (strContains ctx "PriorYear" = true ∨ strContains ctx "Prior1Year" = true) →
      strContains ctx "Duration" = false → strContains ctx "Instant" = true →
      tseSuffix ctx = "_prioryear") ∧
    (strContains ctx "CurrentYear" = false → strContains ctx "PriorYear" = false →
      strContains ctx "Prior1Year" = false → strContains ctx "NextYear" = true →
      tseSuffix ctx = "_forecast") ∧
    (strContains ctx "CurrentYear" = false → strContains ctx "PriorYear" = false →
      strContains ctx "Prior1Year" = false → strContains ctx "NextYear" = false →
      tseSuffix ctx = "") ∧
    (strContains ctx "CurrentYearInstant" = true → jppfsSuffix ctx = "_current") ∧
    (strContains ctx "CurrentYearInstant" = false →
      (strContains ctx "Prior1YearInstant" = true ∨ strContains ctx "PriorYearInstant" = true) →
      jppfsSuffix ctx = "_prior") ∧
    (strContains ctx "CurrentYearInstant" = false →
      strContains ctx "Prior1YearInstant" = false → strContains ctx "PriorYearInstant" = false →
      strContains ctx "CurrentYearDuration" = true → jppfsSuffix ctx = "_duration_current") ∧
    (strContains ctx "CurrentYearInstant" = false →
      strContains ctx "Prior1YearInstant" = false → strContains ctx "PriorYearInstant" = false →
      strContains ctx "CurrentYearDuration" = false → strContains ctx "PriorYearDuration" = true →
      jppfsSuffix ctx = "_duration_prior") ∧
    (∀ e : Elem, e.contextref = ctx →
      tseKey e = strReplace e.name "tse-ed-t:" "" ++ tseSuffix ctx ∧
      jppfsKey e = strReplace e.name "jppfs_cor:" "" ++ jppfsSuffix ctx) := by
  refine ⟨?_, ?_, ?_, ?_, ?_, ?_, ?_, ?_, ?_, ?_, ?_⟩
  · intro h1 h2
    simp [tseSuffix, h1, h2]
  · intro h1 h2 h3
    simp [tseSuffix, h1, h2, h3]
  · intro h1 h2 h3
    rcases h2 with h2 | h2 <;> simp [tseSuffix, h1, h2, h3]
  · intro h1 h2 h3 h4
    rcases h2 with h2 | h2 <;> simp [tseSuffix, h1, h2, h3, h4]
  · intro h1 h2 h3 h4
    simp [tseSuffix, h1, h2, h3, h4]
  · intro h1 h2 h3 h4
    simp [tseSuffix, h1, h2, h3, h4]
  · intro h1
    simp [jppfsSuffix, h1]
  · intro h1 h2
    rcases h2 with h2 | h2 <;> simp [jppfsSuffix, h1, h2]
  · intro h1 h2 h3 h4
    simp [jppfsSuffix, h1, h2, h3, h4]
  · intro h1 h2 h3 h4 h5
    simp [jppfsSuffix, h1, h2, h3, h4, h5]
  · intro e he
    rw [tseKey, jppfsKey, he]
    exact ⟨rfl, rfl⟩

/-- C4 (witness): on context `CurrentYearInstant` the two sweeps assign
the suffixes `_currentyear` and `_current` respectively. -/
theorem tdC4_witness :
    tseSuffix "CurrentYearInstant" = "_currentyear" ∧
    jppfsSuffix "CurrentYearInstant" = "_current" :=
  ⟨(tdC4_amended "CurrentYearInstant").2.1 (by decide) (by decide) (by decide),
   (tdC4_amended "CurrentYearInstant").2.2.2.2.2.2.1 (by decide)⟩

theorem dedupGo_cons_skip (r : DiscRecord) (rest : List DiscRecord) (seen : List String)
    (h1 : r.xbrlUrl = "") : dedupGo (r :: rest) seen = dedupGo rest seen := by
  simp [dedupGo, h1]

theorem dedupGo_cons_dup (r : DiscRecord) (rest : List DiscRecord) (seen : List String)
    (h1 : r.xbrlUrl ≠ "") (h2 : r.xbrlUrl ∈ seen) :
    dedupGo (r :: rest) seen = ((dedupGo rest seen).1, (dedupGo rest seen).2 + 1) := by
  simp [dedupGo, h1, h2]

theorem dedupGo_cons_keep (r : DiscRecord) (rest : List DiscRecord) (seen : List String)
    (h1 : r.xbrlUrl ≠ "") (h2 : r.xbrlUrl ∉ seen) :
    dedupGo (r :: rest) seen =
      (r :: (dedupGo rest (r.xbrlUrl :: seen)).1, (dedupGo rest (r.xbrlUrl :: seen)).2) := by
  simp [dedupGo, h1, h2]

theorem dedupGo_count (rs : List DiscRecord) : ∀ seen : List String,
    (dedupGo rs seen).2 + (dedupGo rs seen).1.length =
      (rs.filter (fun r => r.xbrlUrl ≠ "")).length := by
  induction rs with
  | nil => intro seen; simp [dedupGo]
  | cons r rest ih =>
    intro seen
    by_cases h1 : r.xbrlUrl = ""
    · rw [dedupGo_cons_skip r rest seen h1]
      have : (r.xbrlUrl ≠ "") = False := by simp [h1]
      simp [List.filter_cons, this, ih seen]
    · by_cases h2 : r.xbrlUrl ∈ seen
      · rw [dedupGo_cons_dup r rest seen h1 h2]
        have hc := ih seen
        simp only [ne_eq, decide_not] at hc ⊢
        simp [List.filter_cons, h1]
        omega
      · rw [dedupGo_cons_keep r rest seen h1 h2]
        have hc := ih (r.xbrlUrl :: seen)
        simp only [ne_eq, decide_not] at hc ⊢
        simp [List.filter_cons, h1]
        omega

theorem dedupGo_filter (k : String) (hk : k ≠ "") :
    ∀ (rs : List DiscRecord) (seen : List String),
    (dedupGo rs seen).1.filter (fun r => r.xbrlUrl = k) =
      if k ∈ seen then [] else (rs.filter (fun r => r.xbrlUrl = k)).take 1 := by
  intro rs
  induction rs with
  | nil => intro seen; by_cases h : k ∈ seen <;> simp [dedupGo, h]
  | cons r rest ih =>
    intro seen
    by_cases hrk : r.xbrlUrl = k
    · subst hrk
      by_cases h2 : r.xbrlUrl ∈ seen
      · rw [dedupGo_cons_dup r rest seen hk h2, ih seen]
        simp [h2]
      · rw [dedupGo_cons_keep r rest seen hk h2]
        have ih2 := ih (r.xbrlUrl :: seen)
        rw [List.filter_cons]
        simp only [List.mem_cons, true_or, if_true, decide_True] at ih2 ⊢
        simp [ih2, h2, List.filter_cons]
    · have hfk : (r.xbrlUrl = k) = False := by simp [hrk]
      by_cases h1 : r.xbrlUrl = ""
      · rw [dedupGo_cons_skip r rest seen h1, ih seen]
        simp [List.filter_cons, hfk]
      · by_cases h2 : r.xbrlUrl ∈ seen
        · rw [dedupGo_cons_dup r rest seen h1 h2, ih seen]
          simp [List.filter_cons, hfk]
        · rw [dedupGo_cons_keep r rest seen h1 h2]
          have ih2 := ih (r.xbrlUrl :: seen)
          have hmem : (k ∈ r.xbrlUrl :: seen) ↔ (k ∈ seen) := by
            simp only [List.mem_cons]
            constructor
            · rintro (h | h)
              · exact absurd h.symm hrk
              · exact h
            · exact Or.inr
          simp only [hmem] at ih2
          rw [List.filter_cons]
          simp only [hfk, decide_False, Bool.false_eq_true, if_false]
          rw [ih2]
          simp [List.filter_cons, hfk]

theorem dedupGo_keys_not_mem (rs : List DiscRecord) :
    ∀ (seen : List String) (k : String), k ∈ seen →
      k ∉ (dedupGo rs seen).1.map (fun r => r.xbrlUrl) := by
  induction rs with
  | nil => intro seen k _; simp [dedupGo]
  | cons r rest ih =>
    intro seen k hks
    by_cases h1 : r.xbrlUrl = ""
    · rw [dedupGo_cons_skip r rest seen h1]
      exact ih seen k hks
    · by_cases h2 : r.xbrlUrl ∈ seen
      · rw [dedupGo_cons_dup r rest seen h1 h2]
        exact ih seen k hks
      · rw [dedupGo_cons_keep r rest seen h1 h2]
        have hrk : ¬ (k = r.xbrlUrl) := fun h => h2 (h ▸ hks)
        simp only [List.map_cons, List.mem_cons]
        rintro (h | h)
        · exact hrk h
        · exact ih (r.xbrlUrl :: seen) k (List.mem_cons_of_mem _ hks) h

theorem dedupGo_keys_nodup (rs : List DiscRecord) :
    ∀ seen : List String, ((dedupGo rs seen).1.map (fun r => r.xbrlUrl)).Nodup := by
  induction rs with
  | nil => intro seen; simp [dedupGo]
  | cons r rest ih =>
    intro seen
    by_cases h1 : r.xbrlUrl = ""
    · rw [dedupGo_cons_skip r rest seen h1]
      exact ih seen
    · by_cases h2 : r.xbrlUrl ∈ seen
      · rw [dedupGo_cons_dup r rest seen h1 h2]
        exact ih seen
      · rw [dedupGo_cons_keep r rest seen h1 h2]
        simp only [List.map_cons, List.nodup_cons]
        exact ⟨dedupGo_keys_not_mem rest (r.xbrlUrl :: seen) r.xbrlUrl (List.mem_cons_self _ _),
               ih (r.xbrlUrl :: seen)⟩


/-- C6: across the concatenated pages, the deduplicated output keeps for
every non-empty identity key exactly the first occurrence in page order,
output keys are pairwise distinct, the duplicate counter equals the
number of dropped later occurrences, and for two concrete pages sharing
exactly one key the output holds that key once with a duplicate counter
of 1. -/
theorem tdC6 :
    (∀ (pages : List (List DiscRecord)) (k : String), k ≠ "" →
      (dedupRecords pages.flatten).1.filter (fun r => r.xbrlUrl = k) =
        (pages.flatten.filter (fun r => r.xbrlUrl = k)).take 1) ∧
    (∀ rs : List DiscRecord, ((dedupRecords rs).1.map (fun r => r.xbrlUrl)).Nodup) ∧
    (∀ rs : List DiscRecord,
      (dedupRecords rs).2 + (dedupRecords rs).1.length =
        (rs.filter (fun r => r.xbrlUrl ≠ "")).length) ∧
    dedupRecords ([sampleRec "a", sampleRec "b"] ++ [sampleRec "b", sampleRec "c"]) =
      ([sampleRec "a", sampleRec "b", sampleRec "c"], 1) := by
  refine ⟨?_, ?_, ?_, by decide⟩
  · intro pages k hk
    have := dedupGo_filter k hk pages.flatten []
    simpa [dedupRecords] using this
  · intro rs
    exact dedupGo_keys_nodup rs []
  · intro rs
    exact dedupGo_count rs []

/-- C6 (witness): the first-occurrence property instantiated at two
concrete pages sharing the key `b`. -/
theorem tdC6_witness :
    (dedupRecords ([[sampleRec "a", sampleRec "b"], [sampleRec "b", sampleRec "c"]].flatten)).1.filter
        (fun r => r.xbrlUrl = "b") =
      (([[sampleRec "a", sampleRec "b"], [sampleRec "b", sampleRec "c"]].flatten).filter
        (fun r => r.xbrlUrl = "b")).take 1 :=
  tdC6.1 [[sampleRec "a", sampleRec "b"], [sampleRec "b", sampleRec "c"]] "b" (by decide)

theorem crawlGo_succ (portal : Nat → List DiscRecord) (m page : Nat) :
    crawlGo portal (m + 1) page =
      if portal page = [] then ((if page = 1 then [] else [page]), [])
      else ((if page = 1 then [] else [page]) ++ (crawlGo portal m (page + 1)).1,
            (portal page).filter (fun r => r.xbrlUrl ≠ "") ++ (crawlGo portal m (page + 1)).2) := by
  rfl

/-- C7: when pages 1 and 2 have rows, page 3 is empty and the computed
page total allows at least 3 pages, the crawl issues exactly the requests
for page 1 (plus the banner re-fetch of page 1), page 2 and page 3 — no
page beyond the empty one — and accumulates exactly the XBRL-bearing
records of pages 1 and 2. -/
theorem tdC7 (portal : Nat → List DiscRecord) (banner : Option Nat)
    (h1 : portal 1 ≠ []) (h2 : portal 2 ≠ []) (h3 : portal 3 = [])
    (ht : 3 ≤ totalPagesOf banner) :
    (fetchAllPagesXbrl portal banner).1 = [1, 1, 2, 3] ∧
    (∀ p ∈ (fetchAllPagesXbrl portal banner).1, p ≤ 3) ∧
    (crawlGo portal (totalPagesOf banner) 1).2 =
      (portal 1).filter (fun r => r.xbrlUrl ≠ "") ++
        (portal 2).filter (fun r => r.xbrlUrl ≠ "") := by
  obtain ⟨k, hk⟩ := Nat.exists_eq_add_of_le ht
  have hc : crawlGo portal (totalPagesOf banner) 1 =
      ([2, 3],
       (portal 1).filter (fun r => r.xbrlUrl ≠ "") ++
         (portal 2).filter (fun r => r.xbrlUrl ≠ "")) := by
    rw [hk, show 3 + k = (2 + k) + 1 from by omega, crawlGo_succ, if_neg h1]
    rw [show 2 + k = (1 + k) + 1 from by omega, crawlGo_succ, if_neg h2]
    rw [show 1 + k = k + 1 from by omega, crawlGo_succ, if_pos h3]
    simp
  refine ⟨?_, ?_, by rw [hc]⟩
  · rw [fetchAllPagesXbrl]
    simp only [if_neg h1, hc]
  · intro p hp
    rw [fetchAllPagesXbrl] at hp
    simp only [if_neg h1, hc] at hp
    simp at hp
    rcases hp with h | h | h | h <;> omega

/-- C7 (witness): the crawl over the three-page sample portal requests
pages [1, 1, 2, 3] and accumulates pages 1 and 2. -/
theorem tdC7_witness :
    (fetchAllPagesXbrl samplePortal (some 250)).1 = [1, 1, 2, 3] ∧
    (crawlGo samplePortal (totalPagesOf (some 250)) 1).2 =
      (samplePortal 1).filter (fun r => r.xbrlUrl ≠ "") ++
        (samplePortal 2).filter (fun r => r.xbrlUrl ≠ "") := by
  have h := tdC7 samplePortal (some 250) (by decide) (by decide) (by decide) (by decide)
  exact ⟨h.1, h.2.2⟩

/-- C8 (counterexample): the input `" a "` matches none of the accepted
formats (whether stripped or not, so it lies in the claim's scope), yet
`_format_date_to_iso` returns the NFKC normalization of the *stripped*
input, not of the input itself: `" a "` yields `"a"`, while the
NFKC-normalized input string is `" a "`. -/
theorem tdC8_counterexample :
    acceptedDateFormat (nfkcStr (trimChars (" a ").data)) = false ∧
    acceptedDateFormat (nfkcStr (" a ").data) = false ∧
    formatDateToIso " a " = "a" ∧
    (⟨nfkcStr (" a ").data⟩ : String) = " a " ∧
    ("a" : String) ≠ " a " := by
  refine ⟨by decide, by decide, by decide, by decide, by decide⟩

/-- C8 (amended): the four stated date shapes all normalize to
`2025-08-19`, and every input matching none of the accepted formats is
returned as the NFKC normalization of its whitespace-stripped form rather
than failing. -/
theorem tdC8_amended :
    formatDateToIso "2025-08-19" = "2025-08-19" ∧
    formatDateToIso "2025/08/19" = "2025-08-19" ∧
    formatDateToIso "20250819" = "2025-08-19" ∧
    formatDateToIso "２０２５年８月１９日" = "2025-08-19" ∧
    ∀ s : String, acceptedDateFormat (nfkcStr (trimChars s.data)) = false →
      formatDateToIso s = ⟨nfkcStr (trimChars s.data)⟩ := by
  refine ⟨by decide, by decide, by decide, by decide, ?_⟩
  intro s h
  unfold acceptedDateFormat at h
  simp only [Bool.or_eq_false_iff] at h
  obtain ⟨⟨⟨hIso, hCompact⟩, hJp⟩, hStrp⟩ := h
  have hJp2 : jpDateMatch (nfkcStr (trimChars s.data)) = none :=
    Option.not_isSome_iff_eq_none.mp (by simp [hJp])
  have hStrp2 : strptimeFirst (nfkcStr (trimChars s.data)) = none :=
    Option.not_isSome_iff_eq_none.mp (by simp [hStrp])
  unfold formatDateToIso
  by_cases hd : s.data = []
  · rw [if_pos hd, hd]
    rfl
  · rw [if_neg hd]
    simp only [hIso, hCompact, hJp2, hStrp2, Bool.false_eq_true, if_false]

/-- C8 (witness): `"hello"` matches no accepted format and is returned
unchanged (its stripped NFKC normalization). -/
theorem tdC8_witness :
    acceptedDateFormat (nfkcStr (trimChars ("hello").data)) = false ∧
    formatDateToIso "hello" = "hello" := by
  refine ⟨by decide, ?_⟩
  have h := tdC8_amended.2.2.2.2 "hello" (by decide)
  rw [h]
  decide

theorem alookup_append_left (k : String) (d l : AList)
    (h : (alookup k d).isSome) : alookup k (d ++ l) = alookup k d := by
  induction d with
  | nil => simp [alookup] at h
  | cons p t ih =>
    by_cases hp : p.1 = k
    · simp [alookup, hp]
    · simp only [alookup, hp, if_neg hp, List.cons_append] at h ⊢
      exact ih h

theorem alookup_mergeOnlyNew (k : String) (e : List (String × Value)) :
    ∀ d : AList, (alookup k d).isSome →
      alookup k (mergeOnlyNew d e) = alookup k d := by
  induction e with
  | nil => intro d _; rfl
  | cons p e' ih =>
    intro d h
    show alookup k (List.foldl _ (if (alookup p.1 d).isSome then d else d ++ [p]) e') = _
    by_cases hp : (alookup p.1 d).isSome
    · rw [if_pos hp]
      exact ih d h
    · rw [if_neg hp]
      have h2 : (alookup k (d ++ [p])).isSome := by
        rw [alookup_append_left k d [p] h]
        exact h
      have h3 := ih (d ++ [p]) h2
      show alookup k (mergeOnlyNew (d ++ [p]) e') = alookup k d
      rw [h3, alookup_append_left k d [p] h]

/-- C2 (counterexample): the attachment's curated balance-sheet detail
pass is merged with overwriting `dict.update`, not first-writer-wins: a
summary whose catch-all sweep already bound `cash_and_deposits_current`
to 1 ends up with 2 after the attachment detail pass. -/
theorem tdC2_counterexample :
    alookup "cash_and_deposits_current"
        (summaryProfile [⟨"tse-ed-t:cash_and_deposits", "CurrentYearDuration", "", "1"⟩]) =
      some (Value.num 1) ∧
    alookup "cash_and_deposits_current"
        (extractComprehensive [⟨"tse-ed-t:cash_and_deposits", "CurrentYearDuration", "", "1"⟩]
          (some [("Xacbs01-ixbrl.htm",
                  [⟨"jppfs_cor:CashAndDeposits", "CurrentYearInstant", "", "2"⟩])])) =
      some (Value.num 2) ∧
    Value.num (1 : ℚ) ≠ Value.num 2 := by
  refine ⟨by decide, by decide, by decide⟩

/-- C2 (amended): first-writer-wins holds for the two catch-all merges —
every key present before the tse-ed-t sweep (step 9) and every key
present before the jppfs_cor sweep (step 11) keeps its value — but the
curated attachment detail pass (step 10) merges with overwriting
`dict.update`. -/
theorem tdC2_amended :
    (∀ (doc : List Elem) (k : String), (alookup k (curatedSummary doc)).isSome →
      alookup k (summaryProfile doc) = alookup k (curatedSummary doc)) ∧
    (∀ (doc : List Elem) (att : AttachmentDir) (k : String),
      (alookup k (withDetailed doc att)).isSome →
      alookup k (extractComprehensive doc (some att)) = alookup k (withDetailed doc att)) := by
  constructor
  · intro doc k h
    exact alookup_mergeOnlyNew k (extractAllTse doc) (curatedSummary doc) h
  · intro doc att k h
    exact alookup_mergeOnlyNew k (extractAllJppfs att) (withDetailed doc att) h

/-- C2 (witness): the preservation statements instantiated at the key
`date` over concrete documents. -/
theorem tdC2_witness :
    alookup "date" (summaryProfile []) = alookup "date" (curatedSummary []) ∧
    alookup "date" (extractComprehensive [] (some [])) = alookup "date" (withDetailed [] []) :=
  ⟨tdC2_amended.1 [] "date" (by decide), tdC2_amended.2 [] [] "date" (by decide)⟩

theorem findByName_eq_none (doc : List Elem) (tag : String)
    (h : ∀ e ∈ doc, e.name ≠ tag) : findByName doc tag = none := by
  apply List.find?_eq_none.mpr
  intro e he
  simp [h e he]

theorem findByNameCtx_eq_none (doc : List Elem) (tag ctx : String)
    (h : ∀ e ∈ doc, e.name ≠ tag) : findByNameCtx doc tag ctx = none := by
  apply List.find?_eq_none.mpr
  intro e he
  simp [h e he]

theorem name_ne_of_no_tse (e : Elem) (tag : String)
    (htag : strStartsWith tag "tse-ed-t:" = true)
    (he : strStartsWith e.name "tse-ed-t:" = false) : e.name ≠ tag := by
  intro h
  rw [h, htag] at he
  exact Bool.noConfusion he

theorem findByNameCtx_none_of_no_tse (doc : List Elem) (tag ctx : String)
    (htag : strStartsWith tag "tse-ed-t:" = true)
    (h : ∀ e ∈ doc, strStartsWith e.name "tse-ed-t:" = false) :
    findByNameCtx doc tag ctx = none :=
  findByNameCtx_eq_none doc tag ctx (fun e he => name_ne_of_no_tse e tag htag (h e he))

theorem findByName_none_of_no_tse (doc : List Elem) (tag : String)
    (htag : strStartsWith tag "tse-ed-t:" = true)
    (h : ∀ e ∈ doc, strStartsWith e.name "tse-ed-t:" = false) :
    findByName doc tag = none :=
  findByName_eq_none doc tag (fun e he => name_ne_of_no_tse e tag htag (h e he))

theorem extractItems_nil (doc : List Elem) :
    ∀ (items : List (String × String × String)) (d : AList),
    (∀ it ∈ items, findByNameCtx doc it.2.1 it.2.2 = none) →
    extractItems doc items d = d := by
  intro items
  induction items with
  | nil => intro d _; rfl
  | cons it rest ih =>
    intro d h
    obtain ⟨key, tag, ctx⟩ := it
    have h0 := h _ (List.mem_cons_self _ _)
    simp only at h0
    rw [extractItems, h0]
    exact ih d (fun it hit => h it (List.mem_cons_of_mem _ hit))

theorem extractDividendLoop_nil (doc : List Elem) :
    ∀ (items : List (String × String × String)) (d : AList),
    (∀ it ∈ items, findByNameCtx doc it.2.1 it.2.2 = none) →
    extractDividendLoop doc items d = d := by
  intro items
  induction items with
  | nil => intro d _; rfl
  | cons it rest ih =>
    intro d h
    obtain ⟨key, tag, ctx⟩ := it
    have h0 := h _ (List.mem_cons_self _ _)
    simp only at h0
    rw [extractDividendLoop, h0]
    exact ih d (fun it hit => h it (List.mem_cons_of_mem _ hit))

theorem extractOtherLoop_nil (doc : List Elem) :
    ∀ (items : List (String × String × String)) (d : AList),
    (∀ it ∈ items, findByNameCtx doc it.2.1 it.2.2 = none) →
    extractOtherLoop doc items d = d := by
  intro items
  induction items with
  | nil => intro d _; rfl
  | cons it rest ih =>
    intro d h
    obtain ⟨key, tag, ctx⟩ := it
    have h0 := h _ (List.mem_cons_self _ _)
    simp only at h0
    rw [extractOtherLoop, h0]
    exact ih d (fun it hit => h it (List.mem_cons_of_mem _ hit))

theorem firstFoundElem_none (doc : List Elem) :
    ∀ tags : List String, (∀ t ∈ tags, findByName doc t = none) →
    firstFoundElem doc tags = none := by
  intro tags
  induction tags with
  | nil => intro _; rfl
  | cons t rest ih =>
    intro h
    rw [firstFoundElem, h t (List.mem_cons_self _ _)]
    exact ih (fun t ht => h t (List.mem_cons_of_mem _ ht))

theorem companyLoop_snd_of_none (doc : List Elem) :
    ∀ (items : List (String × List String)) (d : AList) (found : Bool),
    (∀ it ∈ items, firstFoundElem doc it.2 = none) →
    (companyLoop doc items d found).2 = found := by
  intro items
  induction items with
  | nil => intro d found _; rfl
  | cons it rest ih =>
    intro d found h
    obtain ⟨key, tags⟩ := it
    have h0 := h _ (List.mem_cons_self _ _)
    simp only at h0
    rw [companyLoop, h0]
    exact ih _ found (fun it hit => h it (List.mem_cons_of_mem _ hit))


theorem findByName_none_of_reit (doc : List Elem) (tag : String)
    (htag : tag ∈ reitTags)
    (h : ∀ e ∈ doc, e.name ∉ reitTags) : findByName doc tag = none :=
  findByName_eq_none doc tag (fun e he heq => h e he (heq ▸ htag))

/-- C5 (amended): a document in which no extraction pass matches any
element (nothing in the `tse-ed-t:` namespace and no REIT company tag)
yields a profile holding exactly `date` and the nine company-info keys,
all bound to the empty string — not `date` alone — and such a filing is
excluded by the directory aggregator's acceptance test because its
`company_name` is empty. -/
theorem tdC5_amended (doc : List Elem)
    (h : ∀ e ∈ doc, strStartsWith e.name "tse-ed-t:" = false ∧ e.name ∉ reitTags) :
    extractComprehensive doc none = emptyProfile ∧
    keepFiling (extractComprehensive doc none) = false := by
  have h1 : ∀ e ∈ doc, strStartsWith e.name "tse-ed-t:" = false := fun e he => (h e he).1
  have h2 : ∀ e ∈ doc, e.name ∉ reitTags := fun e he => (h e he).2
  have hitems : ∀ (items : List (String × String × String)),
      (∀ it ∈ items, strStartsWith it.2.1 "tse-ed-t:" = true) →
      ∀ it ∈ items, findByNameCtx doc it.2.1 it.2.2 = none :=
    fun items hts it hit => findByNameCtx_none_of_no_tse doc it.2.1 it.2.2 (hts it hit) h1
  have hfd : findByName doc "tse-ed-t:FilingDate" = none :=
    findByName_none_of_no_tse doc _ (by decide) h1
  have hinc : extractItems doc incomeItems [] = [] :=
    extractItems_nil doc incomeItems [] (hitems incomeItems (by decide))
  have hbal : extractItems doc balanceItems [] = [] :=
    extractItems_nil doc balanceItems [] (hitems balanceItems (by decide))
  have hcf : extractItems doc cfItems [] = [] :=
    extractItems_nil doc cfItems [] (hitems cfItems (by decide))
  have hratio : extractItems doc ratioItems [] = [] :=
    extractItems_nil doc ratioItems [] (hitems ratioItems (by decide))
  have hdiv : extractDividend doc = [] := by
    rw [extractDividend]
    exact extractDividendLoop_nil doc dividendItems [] (hitems dividendItems (by decide))
  have hoth : extractOther doc = [] := by
    rw [extractOther]
    exact extractOtherLoop_nil doc otherItems [] (hitems otherItems (by decide))
  have hffGen : ∀ it ∈ companyDialectGeneral, firstFoundElem doc it.2 = none := by
    intro it hit
    apply firstFoundElem_none
    intro t ht
    have hts : strStartsWith t "tse-ed-t:" = true := by
      have : ∀ it ∈ companyDialectGeneral, ∀ t ∈ it.2,
          strStartsWith t "tse-ed-t:" = true := by decide
      exact this it hit t ht
    exact findByName_none_of_no_tse doc t hts h1
  have hffReit : ∀ it ∈ companyDialectReit, firstFoundElem doc it.2 = none := by
    intro it hit
    apply firstFoundElem_none
    intro t ht
    have hts : t ∈ reitTags := by
      have : ∀ it ∈ companyDialectReit, ∀ t ∈ it.2, t ∈ reitTags := by decide
      exact this it hit t ht
    exact findByName_none_of_reit doc t hts h2
  have hs1 : (companyLoop doc companyDialectGeneral [] false).2 = false :=
    companyLoop_snd_of_none doc companyDialectGeneral [] false hffGen
  have hs2 : (companyLoop doc companyDialectReit [] false).2 = false :=
    companyLoop_snd_of_none doc companyDialectReit [] false hffReit
  have hcomp : companyInfo doc =
      companyFallbackKeys.foldl (fun d k => dictInsert d k (Value.str "")) [] := by
    rw [companyInfo, companyDialects]
    simp only [companyScan, hs1, hs2, Bool.false_eq_true, if_false]
  have htse : extractAllTse doc = [] := by
    rw [extractAllTse]
    have hf : doc.filter (fun e => strStartsWith e.name "tse-ed-t:") = [] := by
      rw [List.filter_eq_nil_iff]
      intro e he
      simp [h1 e he]
    rw [hf]
    rfl
  have hmain : extractComprehensive doc none = emptyProfile := by
    show summaryProfile doc = emptyProfile
    rw [summaryProfile, htse]
    show curatedSummary doc = emptyProfile
    rw [curatedSummary]
    rw [hfd, hcomp, hinc, hbal, hcf, hratio, hdiv, hoth]
    decide
  exact ⟨hmain, by rw [hmain]; decide⟩

/-- C5 (counterexample): the profile of a document with zero matching
elements is not "only the key `date`": it also binds `company_name`
(and the other company-info keys) to the empty string. -/
theorem tdC5_counterexample :
    alookup "company_name" (extractComprehensive [] none) = some (Value.str "") ∧
    ("company_name" : String) ≠ "date" := by
  refine ⟨by decide, by decide⟩

/-- C5 (witness): a one-element document in a foreign namespace yields
the ten-key empty profile and is excluded by the aggregator test. -/
theorem tdC5_witness :
    extractComprehensive [⟨"foo:bar", "c", "", "1"⟩] none = emptyProfile ∧
    keepFiling (extractComprehensive [⟨"foo:bar", "c", "", "1"⟩] none) = false :=
  tdC5_amended [⟨"foo:bar", "c", "", "1"⟩] (by decide)

theorem alookup_mem (k : String) (v : Value) :
    ∀ d : AList, alookup k d = some v → (k, v) ∈ d := by
  intro d
  induction d with
  | nil => intro h; exact Option.noConfusion h
  | cons p t ih =>
    intro h
    rw [alookup] at h
    by_cases hp : p.1 = k
    · rw [if_pos hp] at h
      have h2 : p.2 = v := Option.some.inj h
      have hpv : p = (k, v) := by
        obtain ⟨p1, p2⟩ := p
        simp only at hp h2
        rw [hp, h2]
      rw [← hpv]
      exact List.mem_cons_self _ _
    · rw [if_neg hp] at h
      exact List.mem_cons_of_mem _ (ih h)

theorem mem_dictInsert (p : String × Value) (d : AList) (k : String) (v : Value)
    (h : p ∈ dictInsert d k v) : p = (k, v) ∨ p ∈ d := by
  rw [dictInsert] at h
  by_cases hany : d.any (fun q => q.1 = k)
  · rw [if_pos hany] at h
    obtain ⟨q, hq, hfq⟩ := List.mem_map.mp h
    by_cases hqk : q.1 = k
    · simp only [hqk, if_pos rfl] at hfq
      exact Or.inl hfq.symm
    · simp only [hqk, if_neg hqk] at hfq
      exact Or.inr (hfq ▸ hq)
  · rw [if_neg hany] at h
    rcases List.mem_append.mp h with h | h
    · exact Or.inr h
    · simp at h
      exact Or.inl (by rw [h])

theorem goodD_nil : GoodD [] := by
  intro p hp
  exact absurd hp (List.not_mem_nil p)

theorem goodD_dictInsert (d : AList) (k : String) (v : Value)
    (hd : GoodD d) (hp : GoodP (k, v)) : GoodD (dictInsert d k v) := by
  intro p hmem
  rcases mem_dictInsert p d k v hmem with h | h
  · rw [h]; exact hp
  · exact hd p h

theorem goodD_append_one (d : AList) (k : String) (v : Value)
    (hd : GoodD d) (hp : GoodP (k, v)) : GoodD (d ++ [(k, v)]) := by
  intro p hmem
  rcases List.mem_append.mp hmem with h | h
  · exact hd p h
  · simp at h
    rw [h]
    exact hp

theorem goodD_dictUpdate (e : AList) :
    ∀ d : AList, GoodD d → GoodD e → GoodD (dictUpdate d e) := by
  induction e with
  | nil => intro d hd _; exact hd
  | cons p t ih =>
    intro d hd he
    show GoodD (List.foldl _ (dictInsert d p.1 p.2) t)
    have h1 : GoodD (dictInsert d p.1 p.2) :=
      goodD_dictInsert d p.1 p.2 hd (by have := he p (List.mem_cons_self _ _); exact this)
    exact ih _ h1 (fun q hq => he q (List.mem_cons_of_mem _ hq))

theorem goodD_mergeOnlyNew (e : AList) :
    ∀ d : AList, GoodD d → GoodD e → GoodD (mergeOnlyNew d e) := by
  induction e with
  | nil => intro d hd _; exact hd
  | cons p t ih =>
    intro d hd he
    show GoodD (List.foldl _ (if (alookup p.1 d).isSome then d else d ++ [p]) t)
    have h1 : GoodD (if (alookup p.1 d).isSome then d else d ++ [p]) := by
      split
      · exact hd
      · exact goodD_append_one d p.1 p.2 hd (he p (List.mem_cons_self _ _))
    exact ih _ h1 (fun q hq => he q (List.mem_cons_of_mem _ hq))

theorem dropWhile_all_eq_nil (l : List Char)
    (h : ∀ c ∈ l.dropWhile pyIsSpace, pyIsSpace c = true) :
    l.dropWhile pyIsSpace = [] := by
  induction l with
  | nil => rfl
  | cons c t ih =>
    by_cases hc : pyIsSpace c
    · rw [List.dropWhile_cons_of_pos hc] at h ⊢
      exact ih h
    · rw [List.dropWhile_cons_of_neg hc] at h
      exact absurd (h c (List.mem_cons_self _ _)) hc

theorem trimChars_eq_nil_mem (m : List Char) (h : trimChars m = []) :
    ∀ c ∈ m, pyIsSpace c = true := by
  rw [trimChars] at h
  have h1 : (m.dropWhile pyIsSpace).reverse.dropWhile pyIsSpace = [] := by
    rwa [List.reverse_eq_nil_iff] at h
  have h2 : ∀ c ∈ (m.dropWhile pyIsSpace).reverse, pyIsSpace c = true :=
    List.dropWhile_eq_nil_iff.mp h1
  have h3 : ∀ c ∈ m.dropWhile pyIsSpace, pyIsSpace c = true := by
    intro c hc
    exact h2 c (List.mem_reverse.mpr hc)
  have h4 : m.dropWhile pyIsSpace = [] := dropWhile_all_eq_nil m h3
  exact List.dropWhile_eq_nil_iff.mp h4

theorem trimChars_trim_ne_nil (l : List Char) (h : trimChars l ≠ []) :
    trimChars (trimChars l) ≠ [] := by
  intro hcontra
  have hall : ∀ c ∈ trimChars l, pyIsSpace c = true := trimChars_eq_nil_mem _ hcontra
  have hu : ∀ c ∈ (l.dropWhile pyIsSpace).reverse.dropWhile pyIsSpace, pyIsSpace c = true := by
    intro c hc
    apply hall
    rw [trimChars]
    exact List.mem_reverse.mpr hc
  have : (l.dropWhile pyIsSpace).reverse.dropWhile pyIsSpace = [] :=
    dropWhile_all_eq_nil _ hu
  apply h
  rw [trimChars, this, List.reverse_nil]

theorem strData_append (a b : String) : (a ++ b).data = a.data ++ b.data := rfl

theorem str_ne_empty_of_data (s : String) (h : s.data ≠ []) : s ≠ "" := by
  intro he
  rw [he] at h
  exact h rfl

theorem nfkcStr_ne_nil (l : List Char) (h : l ≠ []) : nfkcStr l ≠ [] := by
  rw [nfkcStr]
  intro hc
  exact h (List.map_eq_nil_iff.mp hc)

theorem formatDateToIso_ne_empty (s : String) (h : trimChars s.data ≠ []) :
    formatDateToIso s ≠ "" := by
  have hd : s.data ≠ [] := by
    intro hc
    rw [hc] at h
    exact h rfl
  have hn : nfkcStr (trimChars s.data) ≠ [] := nfkcStr_ne_nil _ h
  rw [formatDateToIso, if_neg hd]
  dsimp only
  split
  · exact str_ne_empty_of_data _ hn
  · split
    · apply str_ne_empty_of_data
      simp [strData_append]
    · split
      · apply str_ne_empty_of_data
        simp [strData_append]
      · split
        · apply str_ne_empty_of_data
          simp [strData_append]
        · exact str_ne_empty_of_data _ hn

theorem extractItems_goodD (doc : List Elem) :
    ∀ (items : List (String × String × String)) (d : AList),
    GoodD d → GoodD (extractItems doc items d) := by
  intro items
  induction items with
  | nil => intro d h; exact h
  | cons it rest ih =>
    intro d h
    obtain ⟨key, tag, ctx⟩ := it
    rw [extractItems]
    apply ih
    split
    · split
      · exact goodD_dictInsert _ _ _ h (Or.inr (by simp))
      · exact h
    · exact h

theorem extractDividendLoop_goodD (doc : List Elem) :
    ∀ (items : List (String × String × String)) (d : AList),
    (∀ it ∈ items, strContains it.1 "date" = true → it.1 ∈ emptyAllowedKeys) →
    GoodD d → GoodD (extractDividendLoop doc items d) := by
  intro items
  induction items with
  | nil => intro d _ h; exact h
  | cons it rest ih =>
    intro d hdate h
    obtain ⟨key, tag, ctx⟩ := it
    rw [extractDividendLoop]
    apply ih _ (fun q hq hc => hdate q (List.mem_cons_of_mem _ hq) hc)
    split
    · split
      · rename_i hc
        apply goodD_dictInsert _ _ _ h
        left
        exact hdate _ (List.mem_cons_self _ _) hc
      · split
        · exact goodD_dictInsert _ _ _ h (Or.inr (by simp))
        · exact h
    · exact h

theorem extractOtherLoop_goodD (doc : List Elem) :
    ∀ (items : List (String × String × String)) (d : AList),
    GoodD d → GoodD (extractOtherLoop doc items d) := by
  intro items
  induction items with
  | nil => intro d h; exact h
  | cons it rest ih =>
    intro d h
    obtain ⟨key, tag, ctx⟩ := it
    rw [extractOtherLoop]
    apply ih
    split
    · split
      · rename_i hk
        apply goodD_dictInsert _ _ _ h
        left
        show key ∈ emptyAllowedKeys
        rw [hk]
        decide
      · split
        · rename_i hk2
          apply goodD_dictInsert _ _ _ h
          left
          show key ∈ emptyAllowedKeys
          rw [hk2]
          decide
        · split
          · exact goodD_dictInsert _ _ _ h (Or.inr (by simp))
          · exact h
    · exact h

theorem strTrim_data_ne_nil (t : String) (h : strTrim t ≠ "") :
    trimChars t.data ≠ [] := by
  intro hc
  apply h
  apply String.ext
  show trimChars t.data = ("" : String).data
  rw [hc]

theorem tseLoop_goodD : ∀ (es : List Elem) (d : AList),
    GoodD d → GoodD (tseLoop es d) := by
  intro es
  induction es with
  | nil => intro d h; exact h
  | cons e rest ih =>
    intro d h
    rw [tseLoop]
    apply ih
    split
    · exact h
    · rename_i htext
      split
      · exact goodD_dictInsert _ _ _ h (Or.inr (by simp))
      · split
        · split
          · apply goodD_dictInsert _ _ _ h
            right
            intro hv
            rw [Value.str.injEq] at hv
            have h1 : trimChars e.text.data ≠ [] := strTrim_data_ne_nil e.text htext
            have h2 : trimChars (strTrim e.text).data ≠ [] := by
              show trimChars (trimChars e.text.data) ≠ []
              exact trimChars_trim_ne_nil _ h1
            exact formatDateToIso_ne_empty (strTrim e.text) h2 hv
          · apply goodD_dictInsert _ _ _ h
            right
            intro hv
            rw [Value.str.injEq] at hv
            exact htext hv
        · exact h

theorem jppfsLoop_goodD : ∀ (es : List Elem) (d : AList),
    GoodD d → GoodD (jppfsLoop es d) := by
  intro es
  induction es with
  | nil => intro d h; exact h
  | cons e rest ih =>
    intro d h
    rw [jppfsLoop]
    apply ih
    split
    · exact h
    · split
      · exact goodD_append_one _ _ _ h (Or.inr (by simp))
      · exact h

theorem extractAllJppfs_goodD (att : AttachmentDir) : GoodD (extractAllJppfs att) := by
  rw [extractAllJppfs]
  generalize (att.filter (fun f => strEndsWith f.1 ".htm")) = fs
  have : ∀ (fs : List (String × List Elem)) (d : AList), GoodD d →
      GoodD (fs.foldl (fun d f =>
        jppfsLoop (f.2.filter (fun e => strStartsWith e.name "jppfs_cor:")) d) d) := by
    intro fs
    induction fs with
    | nil => intro d h; exact h
    | cons f rest ih =>
      intro d h
      exact ih _ (jppfsLoop_goodD _ d h)
  exact this fs [] goodD_nil

theorem extractDetailed_goodD (att : AttachmentDir) : GoodD (extractDetailed att) := by
  rw [extractDetailed]
  split
  · exact extractItems_goodD _ detailedItems [] goodD_nil
  · exact goodD_nil

theorem mem_companyPost (p : String × Value) (key : String) (d : AList)
    (h : p ∈ companyPost key d) : p ∈ d ∨ p.1 = key := by
  by_cases hp : (alookup key d).isSome
  · rw [companyPost, if_pos hp] at h
    exact Or.inl h
  · rw [companyPost, if_neg hp] at h
    rcases mem_dictInsert p d key _ h with h1 | h1
    · right
      rw [h1]
    · exact Or.inl h1

theorem companyLoop_fst_mem (doc : List Elem) :
    ∀ (items : List (String × List String)) (d : AList) (found : Bool) (p : String × Value),
    p ∈ (companyLoop doc items d found).1 →
      p ∈ d ∨ p.1 ∈ items.map (fun it => it.1) := by
  intro items
  induction items with
  | nil => intro d found p h; exact Or.inl h
  | cons it rest ih =>
    intro d found p h
    obtain ⟨key, tags⟩ := it
    rw [companyLoop] at h
    simp only [List.map_cons, List.mem_cons]
    split at h
    · rcases ih _ _ p h with h1 | h1
      · rcases mem_companyPost p key _ h1 with h2 | h2
        · rcases mem_dictInsert p d key _ h2 with h3 | h3
          · right
            left
            rw [h3]
          · exact Or.inl h3
        · right
          left
          exact h2
      · right
        right
        exact h1
    · rcases ih _ _ p h with h1 | h1
      · rcases mem_companyPost p key _ h1 with h2 | h2
        · exact Or.inl h2
        · right
          left
          exact h2
      · right
        right
        exact h1

theorem companyScan_goodD (doc : List Elem) :
    ∀ ds : List (List (String × List String)),
    (∀ m ∈ ds, ∀ it ∈ m, it.1 ∈ emptyAllowedKeys) →
    GoodD (companyScan doc ds) := by
  intro ds
  induction ds with
  | nil =>
    intro _
    show GoodD (companyFallbackKeys.foldl (fun d k => dictInsert d k (Value.str "")) [])
    decide
  | cons m ms ih =>
    intro hks
    rw [companyScan]
    split
    · intro p hp
      rcases companyLoop_fst_mem doc m [] false p hp with h1 | h1
      · exact absurd h1 (List.not_mem_nil p)
      · left
        obtain ⟨it, hit, hit2⟩ := List.mem_map.mp h1
        rw [← hit2]
        exact hks m (List.mem_cons_self _ _) it hit
    · exact ih (fun m2 hm2 => hks m2 (List.mem_cons_of_mem _ hm2))

theorem companyInfo_goodD (doc : List Elem) : GoodD (companyInfo doc) := by
  rw [companyInfo]
  apply companyScan_goodD
  decide

theorem curatedSummary_goodD (doc : List Elem) : GoodD (curatedSummary doc) := by
  rw [curatedSummary]
  apply goodD_dictUpdate
  · apply goodD_dictUpdate
    · apply goodD_dictUpdate
      · apply goodD_dictUpdate
        · apply goodD_dictUpdate
          · apply goodD_dictUpdate
            · apply goodD_dictUpdate
              · apply goodD_dictInsert _ _ _ goodD_nil
                left
                show ("date" : String) ∈ emptyAllowedKeys
                decide
              · exact companyInfo_goodD doc
            · exact extractItems_goodD doc incomeItems [] goodD_nil
          · exact extractItems_goodD doc balanceItems [] goodD_nil
        · exact extractItems_goodD doc cfItems [] goodD_nil
      · exact extractItems_goodD doc ratioItems [] goodD_nil
    · exact extractDividendLoop_goodD doc dividendItems [] (by decide) goodD_nil
  · exact extractOtherLoop_goodD doc otherItems [] goodD_nil

theorem summaryProfile_goodD (doc : List Elem) : GoodD (summaryProfile doc) := by
  rw [summaryProfile]
  apply goodD_mergeOnlyNew _ _ (curatedSummary_goodD doc)
  rw [extractAllTse]
  exact tseLoop_goodD _ [] goodD_nil

theorem extractComprehensive_goodD (doc : List Elem) (att : Option AttachmentDir) :
    GoodD (extractComprehensive doc att) := by
  cases att with
  | none => exact summaryProfile_goodD doc
  | some a =>
    show GoodD (mergeOnlyNew (withDetailed doc a) (extractAllJppfs a))
    apply goodD_mergeOnlyNew _ _ ?_ (extractAllJppfs_goodD a)
    rw [withDetailed]
    exact goodD_dictUpdate _ _ (summaryProfile_goodD doc) (extractDetailed_goodD a)

/-- C1 (amended): in every extracted record, a key bound to the empty
string is one of the allowed-empty keys (`date`, the nine company-info
fields, the three dividend date fields, `fiscal_year_end`,
`new_subsidiaries_names`); every other present key has a non-empty value.
The original claim's exception set of only `date`, `securities_code`,
`company_name` is too small. -/
theorem tdC1_amended (doc : List Elem) (att : Option AttachmentDir) (k : String) (v : Value)
    (h : alookup k (extractComprehensive doc att) = some v)
    (hk : k ∉ emptyAllowedKeys) : v ≠ Value.str "" := by
  have hm := alookup_mem k v _ h
  rcases extractComprehensive_goodD doc att (k, v) hm with h1 | h1
  · exact absurd h1 hk
  · exact h1

/-- C1 (counterexample): a summary whose company name resolves binds the
other company-info keys to the empty string; `tel` is present and bound
to `''` although it is not in the claim's stated exception set. -/
theorem tdC1_counterexample :
    alookup "tel" (extractComprehensive [⟨"tse-ed-t:CompanyName", "", "", "Acme"⟩] none) =
      some (Value.str "") ∧
    ("tel" : String) ∉ (["date", "securities_code", "company_name"] : List String) := by
  refine ⟨by decide, by decide⟩

/-- C1 (witness): the invariant instantiated at a record holding a
parsed `net_sales_current` value. -/
theorem tdC1_witness :
    alookup "net_sales_current"
        (extractComprehensive
          [⟨"tse-ed-t:NetSales", "CurrentYearDuration_ConsolidatedMember_ResultMember", "", "100"⟩]
          none) = some (Value.num 100) ∧
    ("net_sales_current" : String) ∉ emptyAllowedKeys ∧
    Value.num 100 ≠ Value.str "" :=
  ⟨by decide, by decide,
   tdC1_amended
     [⟨"tse-ed-t:NetSales", "CurrentYearDuration_ConsolidatedMember_ResultMember", "", "100"⟩]
     none "net_sales_current" (Value.num 100) (by decide) (by decide)⟩


end Tdnet
